import Mathlib

/-!
Verification of the model-visualizer graph construction core.

This file shallowly embeds the TypeScript sources of the repository:
  src/lib/graphql/introspection.ts   (type refs, unwrapping, scalar test)
  src/lib/graph/graphqlTransformer.ts (three-pass graph builder)
  src/utils/fieldNameInference.ts    (column-name to field-name inference)
  src/utils/fkLookup.ts              (FK lookup map builder)
  nameMapper module                  (table/type bidirectional mapping)
  edge enhancer module               (FK metadata stamping on edges)

JavaScript Maps are modelled as association lists where an insertion conses
to the front, so a lookup that scans front-to-back sees the newest binding,
matching Map.set overwrite semantics.  JavaScript Sets are modelled as lists
with membership tests.  The async fetcher is modelled as a pure function.
Node screen positions (the layout pass) only mutate the position field and
are not modelled; no observable claim mentions positions.
-/

/- ## String helpers: decimal rendering of numbers (JS template `${depth}`) -/

/-- One decimal digit character; the catch-all arm is never hit for d < 10. -/
def digitChar : Nat → Char
  | 0 => '0'
  | 1 => '1'
  | 2 => '2'
  | 3 => '3'
  | 4 => '4'
  | 5 => '5'
  | 6 => '6'
  | 7 => '7'
  | 8 => '8'
  | 9 => '9'
  | _ => '*'

/-- Fuel-driven decimal digit list (most significant first). -/
def natDecGo : Nat → Nat → List Char
  | 0, _ => []
  | fuel + 1, n =>
    if n < 10 then [digitChar n]
    else natDecGo fuel (n / 10) ++ [digitChar (n % 10)]

/-- Decimal rendering of a `Nat`, as JavaScript renders a number in a
template literal. -/
def natDecStr (n : Nat) : String :=
  ⟨natDecGo (n + 1) n⟩

/-- Substring containment on character lists (JS `String.prototype.includes`). -/
def listContainsSub (pat : List Char) : List Char → Bool
  | [] => pat.isEmpty
  | c :: rest => pat.isPrefixOf (c :: rest) || listContainsSub pat rest

/-- JS `s.includes(pat)`. -/
def strIncludes (s pat : String) : Bool :=
  listContainsSub pat.data s.data

/-- JS `s.endsWith(pat)`. -/
def strEndsWith (s pat : String) : Bool :=
  pat.data.isSuffixOf s.data

/-- JS `s.startsWith(pat)`. -/
def strStartsWith (s pat : String) : Bool :=
  pat.data.isPrefixOf s.data

/-- JS `s.slice(0, -n)`: drop the last `n` characters. -/
def strDropRight (s : String) (n : Nat) : String :=
  ⟨s.data.take (s.data.length - n)⟩

/-- JS `s.split(sep)` on character lists for a single-character separator. -/
def splitOnChar (sep : Char) : List Char → List (List Char)
  | [] => [[]]
  | c :: rest =>
    let r := splitOnChar sep rest
    if c == sep then [] :: r
    else
      match r with
      | [] => [[c]]
      | h :: t => (c :: h) :: t

/-- JS `s.split('_')`. -/
def splitOnUnderscore (s : String) : List String :=
  (splitOnChar '_' s.data).map (fun l => ⟨l⟩)

/-- Insertion-order de-duplication helper (JS `Set` then `Array.from`). -/
def dedupGo (seen : List String) : List String → List String
  | [] => []
  | x :: xs => if seen.contains x then dedupGo seen xs else x :: dedupGo (x :: seen) xs

/-- First-occurrence de-duplication, preserving insertion order. -/
def dedupKeepFirst (l : List String) : List String :=
  dedupGo [] l

/-- Number of distinct keys of an association list (a JS `Map`'s `size` when
the map is built from these entries). -/
def distinctKeyCount (l : List (String × α)) : Nat :=
  (dedupKeepFirst (l.map Prod.fst)).length

/- ## Introspection model (src/lib/graphql/introspection.ts) -/

/-- `IntrospectionTypeRef`: recursive NON_NULL/LIST wrapper around a named
type. -/
inductive TypeRef : Type where
  | mk (kind : String) (name : Option String) (ofType : Option TypeRef) : TypeRef

def TypeRef.kind : TypeRef → String
  | .mk k _ _ => k

def TypeRef.name : TypeRef → Option String
  | .mk _ n _ => n

def TypeRef.ofType : TypeRef → Option TypeRef
  | .mk _ _ o => o

/-- Result of `unwrapType`. -/
structure UnwrappedType where
  name : String
  kind : String
  isList : Bool
  isNonNull : Bool

/-- `unwrapType`: bounded unwrapping of NON_NULL / LIST / inner NON_NULL.
The source dereferences `ofType!`; a missing `ofType` there is a programmer
contract violation (it would throw), modelled here as staying in place. -/
def unwrapType (typeRef : TypeRef) : UnwrappedType :=
  let c0 := typeRef
  let p1 := if c0.kind == "NON_NULL" then (c0.ofType.getD c0, true) else (c0, false)
  let c1 := p1.1
  let p2 := if c1.kind == "LIST" then (c1.ofType.getD c1, true) else (c1, false)
  let c2 := p2.1
  let c3 := if c2.kind == "NON_NULL" then c2.ofType.getD c2 else c2
  { name := c3.name.getD "Unknown", kind := c3.kind, isList := p2.2, isNonNull := p1.2 }

/-- `SCALAR_TYPES`: standard scalars plus common custom scalars. -/
def SCALAR_TYPES : List String :=
  ["String", "Int", "Float", "Boolean", "ID", "DateTime", "Date", "Time",
   "JSON", "UUID", "Decimal", "BigInt"]

/-- `isScalarType`. -/
def isScalarType (typename : String) : Bool :=
  SCALAR_TYPES.contains typename

/-- `IntrospectionField` (description and args carry no graph semantics and
are omitted). -/
structure IntrospectionField where
  name : String
  type : TypeRef

/-- `IntrospectionType` (description and interfaces carry no graph semantics
for the modelled functions and are omitted; `fields` is optional as in the
source). -/
structure IntrospectionType where
  name : String
  kind : String
  fields : Option (List IntrospectionField)

/-- `extractRelationshipFields`: drop introspection fields, scalars, and
non-OBJECT/INTERFACE targets. -/
def extractRelationshipFields (t : IntrospectionType) : List IntrospectionField :=
  match t.fields with
  | none => []
  | some fs =>
    fs.filter (fun field =>
      if strStartsWith field.name "__" then false
      else
        let u := unwrapType field.type
        if isScalarType u.name then false
        else u.kind == "OBJECT" || u.kind == "INTERFACE")

/-- Number of fields of a type (`typeInfo.fields?.length || 0`). -/
def fieldsLength (t : IntrospectionType) : Nat :=
  match t.fields with
  | none => 0
  | some fs => fs.length

/- ## Field-name inference (src/utils/fieldNameInference.ts) -/

/-- `snakeToCamel` on character lists: the regex `/_([a-z])/g` replaced
left-to-right, uppercasing the letter and dropping the underscore. -/
def snakeToCamelChars : List Char → List Char
  | [] => []
  | '_' :: c :: rest =>
    if 'a' ≤ c ∧ c ≤ 'z' then c.toUpper :: snakeToCamelChars rest
    else '_' :: snakeToCamelChars (c :: rest)
  | c :: rest => c :: snakeToCamelChars rest

/-- `snakeToCamel`. -/
def snakeToCamel (str : String) : String :=
  ⟨snakeToCamelChars str.data⟩

/-- The special-case table of `inferFieldName`. -/
def specialCaseLookup (columnName : String) : Option String :=
  if columnName == "_cable_peer_type_id" then some "cablePeerType"
  else if columnName == "local_config_context_data_owner_content_type_id" then
    some "localConfigContextDataOwnerContentType"
  else if columnName == "_termination_a_device_id" then some "terminationADevice"
  else if columnName == "_termination_b_device_id" then some "terminationBDevice"
  else none

/-- `inferFieldName`: special cases first, then strip a trailing `_id` and
camel-case, else camel-case the whole column. -/
def inferFieldName (columnName : String) : String :=
  match specialCaseLookup columnName with
  | some v => v
  | none =>
    if strEndsWith columnName "_id" then snakeToCamel (strDropRight columnName 3)
    else snakeToCamel columnName

/-- The pluralized association suffixes of `isJunctionTable`. -/
def junctionSuffixes : List String :=
  ["_permissions", "_members", "_users", "_groups", "_tags", "_vlans",
   "_types", "_locations", "_assignments", "_associations", "_targets",
   "_choices", "_queries"]

/-- `isJunctionTable`. -/
def isJunctionTable (tableName : String) : Bool :=
  if strIncludes tableName "_to_" then true
  else if junctionSuffixes.any (fun sfx => strEndsWith tableName sfx) then true
  else
    let parts := splitOnUnderscore tableName
    if parts.length ≥ 3 then
      let lastPart := parts.getLast?.getD ""
      strEndsWith lastPart "s" || strEndsWith lastPart "es"
    else false

/-- `PgForeignKey`. -/
structure PgForeignKey where
  source_table : String
  source_column : String
  target_table : String
  target_column : String
deriving DecidableEq

/-- `isSelfReference`. -/
def isSelfReference (fk : PgForeignKey) : Bool :=
  fk.source_table == fk.target_table

/- ## FK metadata and lookup map builder (src/utils/fkLookup.ts) -/

/-- `FKMetadata`; `direction` and `cardinality` are the source's string
literals. -/
structure FKMetadata where
  direction : String
  cardinality : String
  sourceTable : String
  targetTable : String
  sourceColumn : String
  targetColumn : String
  fieldName : String
  isJunctionTable : Option Bool
  original : PgForeignKey
deriving DecidableEq

/-- `FKParseStats` (the floating-point `coverageRate` is diagnostic only and
not modelled). -/
structure FKParseStats where
  totalFKs : Nat
  forwardFKs : Nat
  reverseFKs : Nat
  junctionTables : Nat
  selfReferences : Nat
  parseErrors : Nat
  unmappedTables : Nat
deriving DecidableEq

/-- Working state of `buildFKLookupMap`: the lookup entries in insertion
order, the set of processed keys, the unmapped-table set, and the stats. -/
structure FKBuildState where
  lookup : List (String × FKMetadata)
  processedKeys : List String
  unmapped : List String
  stats : FKParseStats

/-- Add to a JS `Set` modelled as a list (no-op when already present). -/
def setAdd (l : List String) (x : String) : List String :=
  if l.contains x then l else l ++ [x]

/-- The key a row would produce: both tables mapped through the name mapper,
then `"{SourceType}.{inferFieldName source_column}"`. -/
def fkForwardKey (tableToType : String → Option String) (fk : PgForeignKey) :
    Option String :=
  match tableToType fk.source_table, tableToType fk.target_table with
  | some sourceType, some _ => some (sourceType ++ "." ++ inferFieldName fk.source_column)
  | _, _ => none

/-- One iteration of the `buildFKLookupMap` loop over a single FK row. -/
def fkStep (tableToType : String → Option String) (s : FKBuildState)
    (fk : PgForeignKey) : FKBuildState :=
  let sourceType := tableToType fk.source_table
  let targetType := tableToType fk.target_table
  let unmapped1 := if sourceType.isNone then setAdd s.unmapped fk.source_table else s.unmapped
  let unmapped2 := if targetType.isNone then setAdd unmapped1 fk.target_table else unmapped1
  match sourceType, targetType with
  | some st, some _ =>
    let fieldName := inferFieldName fk.source_column
    let isJunction := isJunctionTable fk.source_table
    let isSelfRef := isSelfReference fk
    let stats1 := { s.stats with
      junctionTables := s.stats.junctionTables + (if isJunction then 1 else 0),
      selfReferences := s.stats.selfReferences + (if isSelfRef then 1 else 0) }
    let forwardMeta : FKMetadata :=
      { direction := "forward",
        cardinality := if isJunction then "many-to-many" else "many-to-one",
        sourceTable := fk.source_table,
        targetTable := fk.target_table,
        sourceColumn := fk.source_column,
        targetColumn := fk.target_column,
        fieldName := fieldName,
        isJunctionTable := some isJunction,
        original := fk }
    let forwardKey := st ++ "." ++ fieldName
    if s.processedKeys.contains forwardKey then
      { s with unmapped := unmapped2,
               stats := { stats1 with parseErrors := stats1.parseErrors + 1 } }
    else
      { s with
        lookup := s.lookup ++ [(forwardKey, forwardMeta)],
        processedKeys := s.processedKeys ++ [forwardKey],
        unmapped := unmapped2,
        stats := { stats1 with forwardFKs := stats1.forwardFKs + 1 } }
  | _, _ =>
    { s with unmapped := unmapped2,
             stats := { s.stats with parseErrors := s.stats.parseErrors + 1 } }

/-- `buildFKLookupMap`.  The source returns only the lookup map and computes
the statistics in a local record; the model returns the whole final state so
that the statistics are observable. -/
def fkInit (foreignKeys : List PgForeignKey) : FKBuildState :=
  { lookup := [], processedKeys := [], unmapped := [],
    stats := { totalFKs := foreignKeys.length, forwardFKs := 0, reverseFKs := 0,
               junctionTables := 0, selfReferences := 0, parseErrors := 0,
               unmappedTables := 0 } }

def buildFKLookupMap (foreignKeys : List PgForeignKey)
    (tableToType : String → Option String) : FKBuildState :=
  let s := foreignKeys.foldl (fkStep tableToType) (fkInit foreignKeys)
  { s with stats := { s.stats with unmappedTables := s.unmapped.length } }

/- ## Name mapper (table and type bidirectional mapping) -/

/-- `SPECIAL_CASE_OVERRIDES`: table name to GraphQL type name. -/
def SPECIAL_CASE_OVERRIDES : List (String × String) :=
  [("ipam_ipaddress", "IPAddressType"),
   ("ipam_vrf", "VRFType"),
   ("ipam_vlan", "VLANType"),
   ("ipam_rir", "RIRType"),
   ("virtualization_virtualmachine", "VirtualMachineType"),
   ("virtualization_vminterface", "VMInterfaceType")]

/-- `getReverseSpecialCases`: type name to table name. -/
def reverseSpecialCases : List (String × String) :=
  SPECIAL_CASE_OVERRIDES.map (fun p => (p.2, p.1))

/-- Is the character an ASCII capital (the regex class `[A-Z]`)? -/
def isUpperAZ (c : Char) : Bool :=
  'A' ≤ c && c ≤ 'Z'

/-- The regex replace of `pascalToSnake`: lowercase every capital, inserting
an underscore before it except at offset 0. -/
def pascalToSnakeChars : List Char → List Char
  | [] => []
  | c :: rest =>
    (if isUpperAZ c then [c.toLower] else [c]) ++
      rest.flatMap (fun d => if isUpperAZ d then ['_', d.toLower] else [d])

/-- The regex replace `/__+/g` with a single underscore collapses every
maximal run of underscores to one; single-pass scan with a flag recording
whether the previous character was an underscore. -/
def collapseGo : Bool → List Char → List Char
  | _, [] => []
  | prevUnderscore, c :: rest =>
    if c = '_' then
      if prevUnderscore then collapseGo true rest
      else '_' :: collapseGo true rest
    else c :: collapseGo false rest

def collapseUnderscores (l : List Char) : List Char :=
  collapseGo false l

/-- `pascalToSnake`. -/
def pascalToSnake (str : String) : String :=
  ⟨collapseUnderscores (pascalToSnakeChars str.data)⟩

/-- Pattern tables of the app-prefix heuristic, checked in order with JS
`includes` (substring containment). -/
def dcimPatterns : List String :=
  ["Device", "Rack", "Interface", "Cable", "Power", "Console",
   "Location", "Manufacturer", "Platform", "Module"]

def ipamPatterns : List String :=
  ["IP", "VLAN", "VRF", "Prefix", "Namespace", "RIR", "Route"]

def circuitsPatterns : List String := ["Circuit", "Provider"]

def tenancyPatterns : List String := ["Tenant"]

def virtualizationPatterns : List String := ["VM", "Virtual", "Cluster"]

def extrasPatterns : List String :=
  ["Tag", "Status", "Role", "Webhook", "CustomField", "Job",
   "ConfigContext", "Contact", "Team", "Secret", "Note"]

def usersPatterns : List String := ["User", "Group", "Permission", "Token"]

def cloudPatterns : List String := ["Cloud"]

/-- The source's `inferAppPrefix`: guess the app label of a type basename
from keyword-membership tables. -/
def inferAppPrefixName (basename : String) : Option String :=
  if dcimPatterns.any (fun p => strIncludes basename p) then some "dcim"
  else if ipamPatterns.any (fun p => strIncludes basename p) then some "ipam"
  else if circuitsPatterns.any (fun p => strIncludes basename p) then some "circuits"
  else if tenancyPatterns.any (fun p => strIncludes basename p) then some "tenancy"
  else if virtualizationPatterns.any (fun p => strIncludes basename p) then some "virtualization"
  else if extrasPatterns.any (fun p => strIncludes basename p) then some "extras"
  else if usersPatterns.any (fun p => strIncludes basename p) then some "users"
  else if cloudPatterns.any (fun p => strIncludes basename p) then some "cloud"
  else none

/-- `inferTableNameFromType`: strip the `Type` suffix, consult the reverse
special cases, then snake-case and prepend the inferred app label. -/
def inferTableNameFromType (typename : String) : Option String :=
  let base := if strEndsWith typename "Type" then strDropRight typename 4 else typename
  match reverseSpecialCases.lookup typename with
  | some tbl => some tbl
  | none =>
    let snakeCaseModel := pascalToSnake base
    match inferAppPrefixName base with
    | some app => some (app ++ "_" ++ snakeCaseModel)
    | none => none

/-- `NameMapper`: two JS `Map`s; insertion conses to the front so a lookup
sees the newest binding (Map.set overwrite semantics). -/
structure NameMapper where
  tableToTypeMap : List (String × String)
  typeToTableMap : List (String × String)

def NameMapper.tableToType (m : NameMapper) (tableName : String) : Option String :=
  m.tableToTypeMap.lookup tableName

def NameMapper.typeToTable (m : NameMapper) (typeName : String) : Option String :=
  let normalized := if strEndsWith typeName "Type" then typeName else typeName ++ "Type"
  m.typeToTableMap.lookup normalized

def NameMapper.addMapping (m : NameMapper) (tableName typeName : String) : NameMapper :=
  { tableToTypeMap := (tableName, typeName) :: m.tableToTypeMap,
    typeToTableMap := (typeName, tableName) :: m.typeToTableMap }

/-- `NameMapperStats` counts updated by `buildNameMapper` (the fields the
source never updates, and the floating-point coverage rate, are omitted). -/
structure NameMapperStats where
  totalMappings : Nat
  successfulMappings : Nat
  failedMappings : Nat
deriving DecidableEq

/-- The per-typename step of `buildNameMapper`. -/
def nmStep (acc : NameMapper × NameMapperStats) (typename : String) :
    NameMapper × NameMapperStats :=
  let stats1 := { acc.2 with totalMappings := acc.2.totalMappings + 1 }
  match inferTableNameFromType typename with
  | some tableName =>
    (acc.1.addMapping tableName typename,
     { stats1 with successfulMappings := stats1.successfulMappings + 1 })
  | none =>
    (acc.1, { stats1 with failedMappings := stats1.failedMappings + 1 })

/-- `buildNameMapper`: reverse-engineer a table name from every discovered
type name and record the pair in both directions. -/
def buildNameMapper (typenames : List String) : NameMapper × NameMapperStats :=
  typenames.foldl nmStep (⟨[], []⟩, ⟨0, 0, 0⟩)

/- ## Graph model (src/lib/graph/types.ts and graphqlTransformer.ts) -/

/-- The `data` payload of an enhanced edge.  `none` in a field models a key
absent from the JS object; the object spread in the enhancer preserves the
fields it does not override. -/
structure EdgeData where
  isFK : Option Bool := none
  fkMetadata : Option FKMetadata := none
  direction : Option String := none
  cardinality : Option String := none
  sourceTable : Option String := none
  targetTable : Option String := none
  isJunctionTable : Option Bool := none
deriving DecidableEq

/-- The empty JS object `{}` as edge data. -/
def EdgeData.empty : EdgeData := {}

/-- `GraphEdge`: `edgeType` is the source's `type` field (always
`"default"` from `createEdge`); `data` is absent until the enhancer runs. -/
structure GraphEdge where
  id : String
  source : String
  target : String
  edgeType : String
  data : Option EdgeData := none
deriving DecidableEq

/-- The `data` payload of a graph node. -/
structure GraphNodeData where
  label : String
  typename : String
  depth : Nat
  isRoot : Bool
  fieldType : String
  isPrimaryModel : Bool
deriving DecidableEq

/-- `GraphNode`: `nodeType` is the source's `type` field (always
`"custom"`); `position` is set only by the layout pass and is not
modelled. -/
structure GraphNode where
  id : String
  nodeType : String
  data : GraphNodeData
deriving DecidableEq

/-- `TransformOptions`. -/
structure TransformOptions where
  maxDepth : Nat
  includeScalars : Bool := false
  typeFilter : Option (String → Bool) := none
  showFieldNodes : Bool := false
  primaryModelChecker : Option (String → Bool) := none

/-- The batch type fetcher, modelled as a pure function returning the
entries of the fetched map. -/
def TypeFetcher : Type :=
  List String → List (String × IntrospectionType)

/-- The process type cache, a JS `Map` modelled as an association list with
first-match lookup; insertions cons to the front. -/
def TypeMap : Type :=
  List (String × IntrospectionType)

def MAX_TYPES_PER_DEPTH : Nat := 100

/-- `cleanTypenameForDisplay`: strip a trailing `Type`. -/
def cleanTypenameForDisplay (typename : String) : String :=
  if strEndsWith typename "Type" then strDropRight typename 4 else typename

/-- `generateNodeId`: `typename:fieldName:depth`, with `root` for a missing
field name. -/
def generateNodeId (typename : String) (fieldName : Option String) (depth : Nat) :
    String :=
  let fieldPart := fieldName.getD "root"
  typename ++ ":" ++ fieldPart ++ ":" ++ natDecStr depth

/-- Does a typename pass the optional custom filter? -/
def typeFilterPass (options : TransformOptions) (typename : String) : Bool :=
  match options.typeFilter with
  | some f => f typename
  | none => true

/-- The primary-model predicate with its default
(`primaryModelChecker ? primaryModelChecker(typename) : false`). -/
def primaryOf (options : TransformOptions) (typename : String) : Bool :=
  match options.primaryModelChecker with
  | some c => c typename
  | none => false

/-- `createNode`.  The JS `fieldName || cleanedTypename` treats the empty
string as falsy. -/
def createNode (typename : String) (fieldName : Option String) (depth : Nat)
    (isRoot : Bool) (options : TransformOptions) : GraphNode :=
  let id := generateNodeId typename fieldName depth
  let cleanedTypename := cleanTypenameForDisplay typename
  let label :=
    if isRoot then cleanedTypename
    else
      match fieldName with
      | some f => if f.data.isEmpty then cleanedTypename else f
      | none => cleanedTypename
  { id := id, nodeType := "custom",
    data := { label := label, typename := typename, depth := depth,
              isRoot := isRoot, fieldType := "object",
              isPrimaryModel := primaryOf options typename } }

/-- `createEdge`. -/
def createEdge (parentId childId fieldName : String) : GraphEdge :=
  { id := parentId ++ "-[" ++ fieldName ++ "]-to-" ++ childId,
    source := parentId, target := childId, edgeType := "default", data := none }

/- ## Pass 1: breadth-first node creation -/

/-- The statistics accumulated during Pass 1; `nodesPerDepth` is the JS
record modelled as an association list. -/
structure Pass1Stats where
  filteredNodes : Nat
  nodesPerDepth : List (Nat × Nat)
  typesFetched : Nat
deriving DecidableEq

/-- `stats.nodesPerDepth[depth] = (stats.nodesPerDepth[depth] || 0) + 1`. -/
def bumpDepthCount : List (Nat × Nat) → Nat → List (Nat × Nat)
  | [], d => [(d, 1)]
  | (k, v) :: rest, d =>
    if k = d then (k, v + 1) :: rest else (k, v) :: bumpDepthCount rest d

/-- The mutable state of Pass 1: the working type cache, the created nodes
in creation order, the visited `typename:depth` keys, and the stats. -/
structure Pass1State where
  typeData : TypeMap
  nodes : List GraphNode
  visited : List String
  stats : Pass1Stats

/-- The visited-set key `` `${typename}:${depth}` ``. -/
def visitKeyOf (typename : String) (depth : Nat) : String :=
  typename ++ ":" ++ natDecStr depth

/-- `createNodeForType`: depth guard, visited guard, cache lookup, node
creation, stats update. -/
def createNodeForType (typename : String) (currentDepth : Nat)
    (options : TransformOptions) (s : Pass1State) : Pass1State :=
  if currentDepth ≥ options.maxDepth then s
  else
    if s.visited.contains (visitKeyOf typename currentDepth) then s
    else
      let s1 := { s with visited := visitKeyOf typename currentDepth :: s.visited }
      match s.typeData.lookup typename with
      | none => s1
      | some typeInfo =>
        let isRoot := currentDepth == 0
        let node := createNode typename none currentDepth isRoot options
        let filteredCount := fieldsLength typeInfo - (extractRelationshipFields typeInfo).length
        { s1 with
          nodes := s1.nodes ++ [node],
          stats := { s1.stats with
            nodesPerDepth := bumpDepthCount s1.stats.nodesPerDepth currentDepth,
            filteredNodes := s1.stats.filteredNodes + filteredCount } }

/-- The referenced types contributed by one processed type. -/
def refTypesOf (typeData : TypeMap) (options : TransformOptions)
    (typename : String) : List String :=
  match typeData.lookup typename with
  | none => []
  | some typeInfo =>
    (extractRelationshipFields typeInfo).filterMap (fun field =>
      let u := unwrapType field.type
      if typeFilterPass options u.name then some u.name else none)

/-- `getReferencedTypes`: collect unwrapped, filtered target names into a JS
`Set`, then `Array.from` in insertion order. -/
def getReferencedTypes (typeData : TypeMap) (typenames : List String)
    (options : TransformOptions) : List String :=
  dedupKeepFirst ((typenames.map (refTypesOf typeData options)).flatten)

/-- The per-depth auto-fetch of missing types, capped at
`MAX_TYPES_PER_DEPTH`; fetched entries are merged into the working cache. -/
def fetchStep (fetchTypes : Option TypeFetcher) (typesToProcess : List String)
    (s : Pass1State) : Pass1State :=
  let missingTypes := typesToProcess.filter (fun t => (s.typeData.lookup t).isNone)
  if missingTypes.isEmpty then s
  else
    match fetchTypes with
    | none => s
    | some f =>
      let typesToFetch := missingTypes.take MAX_TYPES_PER_DEPTH
      let fetchedTypes := f typesToFetch
      { s with
        typeData := fetchedTypes.foldl (fun m p => p :: m) s.typeData,
        stats := { s.stats with
          typesFetched := s.stats.typesFetched + distinctKeyCount fetchedTypes } }

/-- The `for (depth = 0; depth < maxDepth; depth++)` loop of Pass 1; `fuel`
is the number of iterations left, `depth` the current level. -/
def pass1Go (options : TransformOptions) (fetchTypes : Option TypeFetcher) :
    Nat → Nat → List String → Pass1State → Pass1State
  | 0, _, _, s => s
  | fuel + 1, depth, currentTypes, s =>
    let typesToProcess :=
      currentTypes.filter (fun t => !(s.visited.contains (visitKeyOf t depth)))
    if typesToProcess.isEmpty then s
    else
      let s1 := fetchStep fetchTypes typesToProcess s
      let s2 := typesToProcess.foldl
        (fun st t => createNodeForType t depth options st) s1
      let next := getReferencedTypes s2.typeData typesToProcess options
      pass1Go options fetchTypes fuel (depth + 1) next s2

/-- The initial Pass 1 state: the caller's cache, no nodes, no visited
keys, zeroed stats. -/
def pass1InitState (typeData : TypeMap) : Pass1State :=
  { typeData := typeData, nodes := [], visited := [],
    stats := { filteredNodes := 0, nodesPerDepth := [], typesFetched := 0 } }

/-- The final Pass 1 state of `buildGraphFromIntrospection`. -/
def pass1Final (rootTypes : List String) (typeData : TypeMap)
    (options : TransformOptions) (fetchTypes : Option TypeFetcher) : Pass1State :=
  pass1Go options fetchTypes options.maxDepth 0 rootTypes (pass1InitState typeData)

/- ## Pass 2: edge creation over the completed node set -/

/-- The Pass 2 node index key `` `${typename}:${depth}` ``. -/
def nodeKeyOf (n : GraphNode) : String :=
  visitKeyOf n.data.typename n.data.depth

/-- The node map of Pass 2: nodes inserted in order with `Map.set`, so the
last node with a given key wins; modelled as a search of the reversed
list. -/
def nodeMapGet (nodes : List GraphNode) (key : String) : Option GraphNode :=
  nodes.reverse.find? (fun n => nodeKeyOf n == key)

/-- The edges contributed by one parent node: none when the parent is not a
primary model; otherwise one edge per relationship field whose filtered
child has a node at exactly depth + 1. -/
def edgesForParent (nodes : List GraphNode) (typeData : TypeMap)
    (options : TransformOptions) (parentNode : GraphNode) : List GraphEdge :=
  if !parentNode.data.isPrimaryModel then []
  else
    match typeData.lookup parentNode.data.typename with
    | none => []
    | some typeInfo =>
      (extractRelationshipFields typeInfo).filterMap (fun field =>
        let u := unwrapType field.type
        let childTypename := u.name
        if !typeFilterPass options childTypename then none
        else
          let childKey := childTypename ++ ":" ++ natDecStr (parentNode.data.depth + 1)
          match nodeMapGet nodes childKey with
          | some childNode => some (createEdge parentNode.id childNode.id field.name)
          | none => none)

/-- The skipped-edge count contributed by one parent node: its relationship
field count when it is not a primary model and its type data is present. -/
def skippedForParent (typeData : TypeMap) (parentNode : GraphNode) : Nat :=
  if parentNode.data.isPrimaryModel then 0
  else
    match typeData.lookup parentNode.data.typename with
    | none => 0
    | some typeInfo => (extractRelationshipFields typeInfo).length

/-- `createEdgesBetweenNodes`: edges in parent order, plus the skipped
count. -/
def createEdgesBetweenNodes (nodes : List GraphNode) (typeData : TypeMap)
    (options : TransformOptions) : List GraphEdge × Nat :=
  ((nodes.map (edgesForParent nodes typeData options)).flatten,
   (nodes.map (skippedForParent typeData)).sum)

/- ## The entry point -/

/-- The result statistics. -/
structure GraphStats where
  totalNodes : Nat
  totalEdges : Nat
  nodesPerDepth : List (Nat × Nat)
  filteredNodes : Nat
  typesFetched : Nat
  edgesSkippedNonPrimary : Nat
deriving DecidableEq

/-- `GraphTransformResult`. -/
structure GraphTransformResult where
  nodes : List GraphNode
  edges : List GraphEdge
  stats : GraphStats
deriving DecidableEq

/-- `buildGraphFromIntrospection`: Pass 1 (breadth-first nodes with
auto-fetch), Pass 2 (edges), Pass 3 (layout, which only sets positions and
is not modelled), and the stats record. -/
def buildGraphFromIntrospection (rootTypes : List String) (typeData : TypeMap)
    (options : TransformOptions) (fetchTypes : Option TypeFetcher) :
    GraphTransformResult :=
  let s := pass1Final rootTypes typeData options fetchTypes
  let pass2 := createEdgesBetweenNodes s.nodes s.typeData options
  { nodes := s.nodes,
    edges := pass2.1,
    stats := { totalNodes := s.nodes.length,
               totalEdges := pass2.1.length,
               nodesPerDepth := s.stats.nodesPerDepth,
               filteredNodes := s.stats.filteredNodes,
               typesFetched := s.stats.typesFetched,
               edgesSkippedNonPrimary := pass2.2 } }

/- ## Edge enhancer -/

/-- `enhanceEdgeWithFK`: look up `"{sourceType}.{fieldName}"`; stamp the FK
metadata when found, else stamp `isFK: false`; a missing lookup map also
stamps `isFK: false`. -/
def enhanceEdgeWithFK (edge : GraphEdge) (sourceType fieldName : String)
    (fkLookup : Option (List (String × FKMetadata))) : GraphEdge :=
  let base := edge.data.getD EdgeData.empty
  match fkLookup with
  | none => { edge with data := some { base with isFK := some false } }
  | some lk =>
    let lookupKey := sourceType ++ "." ++ fieldName
    match lk.lookup lookupKey with
    | some fkMetadata =>
      let enhanced : EdgeData :=
        { base with
          isFK := some true,
          fkMetadata := some fkMetadata,
          direction := some fkMetadata.direction,
          cardinality := some fkMetadata.cardinality,
          sourceTable := some fkMetadata.sourceTable,
          targetTable := some fkMetadata.targetTable,
          isJunctionTable := fkMetadata.isJunctionTable }
      { edge with data := some enhanced }
    | none => { edge with data := some { base with isFK := some false } }

/- ## Generic association-list lemmas -/

theorem lookup_mem {β : Type} {k : String} {v : β} :
    ∀ {l : List (String × β)}, l.lookup k = some v → (k, v) ∈ l := by
  intro l
  induction l with
  | nil => intro h; simp [List.lookup] at h
  | cons p rest ih =>
    obtain ⟨a, b⟩ := p
    intro h
    rw [List.lookup] at h
    by_cases hk : (k == a) = true
    · have hka : k = a := by simpa using hk
      simp only [hk] at h
      simp only [Option.some.injEq] at h
      subst hka
      subst h
      exact List.mem_cons_self _ _
    · have hf : (k == a) = false := by simpa using hk
      simp only [hf] at h
      exact List.mem_cons_of_mem _ (ih h)

theorem lookup_isSome_of_mem {β : Type} {k : String} {v : β} :
    ∀ {l : List (String × β)}, (k, v) ∈ l → (l.lookup k).isSome := by
  intro l
  induction l with
  | nil => intro h; simp at h
  | cons p rest ih =>
    obtain ⟨a, b⟩ := p
    intro h
    rw [List.lookup]
    by_cases hk : (k == a) = true
    · simp [hk]
    · have hf : (k == a) = false := by simpa using hk
      simp only [hf]
      rcases List.mem_cons.mp h with h1 | h2
      · exfalso
        apply hk
        obtain ⟨rfl, rfl⟩ : k = a ∧ v = b := by simpa using h1
        simp
      · exact ih h2

/- ## Concrete end-to-end fixture (spec section 8) -/

/-- The two relationship fields of the end-to-end `DeviceType`. -/
def devFields : List IntrospectionField :=
  [ { name := "manufacturer",
      type := TypeRef.mk "OBJECT" (some "ManufacturerType") none },
    { name := "interfaces",
      type := TypeRef.mk "LIST" none (some (TypeRef.mk "OBJECT" (some "InterfaceType") none)) } ]

def devTy : IntrospectionType :=
  { name := "DeviceType", kind := "OBJECT", fields := some devFields }

def mfrTy : IntrospectionType :=
  { name := "ManufacturerType", kind := "OBJECT", fields := some [] }

def intfTy : IntrospectionType :=
  { name := "InterfaceType", kind := "OBJECT", fields := some [] }

/-- The end-to-end cache of spec section 8. -/
def cacheA : TypeMap :=
  [("DeviceType", devTy), ("ManufacturerType", mfrTy), ("InterfaceType", intfTy)]

/-- Options of end-to-end A: depth 2, only `DeviceType` is primary. -/
def optsA : TransformOptions :=
  { maxDepth := 2, primaryModelChecker := some (fun t => t == "DeviceType") }

/-- Options of end-to-end B: depth 2, nothing is primary. -/
def optsB : TransformOptions :=
  { maxDepth := 2, primaryModelChecker := some (fun _ => false) }

/-- Options with the primary-model checker absent. -/
def optsC : TransformOptions := { maxDepth := 2 }

/- ## Claim C1 -/

/-- Claim C1: on the end-to-end A input (roots `["DeviceType"]`, depth 2,
the three-type cache, checker true only for `DeviceType`),
`buildGraphFromIntrospection` returns exactly the three nodes DeviceType at
depth 0, ManufacturerType at depth 1 and InterfaceType at depth 1, exactly
two edges whose source is the DeviceType depth-0 node, and
`edgesSkippedNonPrimary = 0`. -/
theorem claim1_end_to_end_A :
    (buildGraphFromIntrospection ["DeviceType"] cacheA optsA none).nodes.map
        (fun n => (n.data.typename, n.data.depth)) =
      [("DeviceType", 0), ("ManufacturerType", 1), ("InterfaceType", 1)] ∧
    (buildGraphFromIntrospection ["DeviceType"] cacheA optsA none).nodes.map
        (fun n => n.id) =
      ["DeviceType:root:0", "ManufacturerType:root:1", "InterfaceType:root:1"] ∧
    (buildGraphFromIntrospection ["DeviceType"] cacheA optsA none).edges.length = 2 ∧
    (buildGraphFromIntrospection ["DeviceType"] cacheA optsA none).edges.map
        (fun e => e.source) =
      ["DeviceType:root:0", "DeviceType:root:0"] ∧
    (buildGraphFromIntrospection ["DeviceType"] cacheA optsA none).stats.edgesSkippedNonPrimary
      = 0 := by
  decide

/- ## Claim C8 -/

/-- Claim C8: the four stated field-name-inference equalities hold, and
`inferFieldName` applies its rules in order: exact special-case lookup
first, then stripping a trailing `_id` and camel-casing the remainder, else
camel-casing the whole column. -/
theorem claim8_field_inference :
    inferFieldName "manufacturer_id" = "manufacturer" ∧
    inferFieldName "device_type_id" = "deviceType" ∧
    isJunctionTable "interface_tagged_vlans" = true ∧
    isJunctionTable "device" = false ∧
    (∀ columnName v, specialCaseLookup columnName = some v →
      inferFieldName columnName = v) ∧
    (∀ columnName, specialCaseLookup columnName = none →
      strEndsWith columnName "_id" = true →
      inferFieldName columnName = snakeToCamel (strDropRight columnName 3)) ∧
    (∀ columnName, specialCaseLookup columnName = none →
      strEndsWith columnName "_id" = false →
      inferFieldName columnName = snakeToCamel columnName) := by
  refine ⟨by decide, by decide, by decide, by decide, ?_, ?_, ?_⟩
  · intro columnName v h
    simp [inferFieldName, h]
  · intro columnName h1 h2
    simp [inferFieldName, h1, h2]
  · intro columnName h1 h2
    simp [inferFieldName, h1, h2]

/-- Witness for C8: the rule-order statements applied at concrete columns. -/
theorem claim8_field_inference_witness :
    inferFieldName "_cable_peer_type_id" = "cablePeerType" ∧
    inferFieldName "rack_id" = "rack" ∧
    inferFieldName "serial" = "serial" := by
  refine ⟨?_, ?_, ?_⟩
  · exact claim8_field_inference.2.2.2.2.1 "_cable_peer_type_id" "cablePeerType" (by decide)
  · have h := claim8_field_inference.2.2.2.2.2.1 "rack_id" (by decide) (by decide)
    rw [h]; decide
  · have h := claim8_field_inference.2.2.2.2.2.2 "serial" (by decide) (by decide)
    rw [h]; decide

/- ## Claim C9 -/

/-- Claim C9: `enhanceEdgeWithFK` preserves the edge's id, source and
target; it stamps the edge as a foreign key with the looked-up metadata's
direction, cardinality, tables and junction flag exactly when the lookup is
available and contains `"{sourceType}.{fieldName}"`, and stamps
`isFK = false` in every other case, including an absent lookup. -/
theorem claim9_edge_enhancer (edge : GraphEdge) (sourceType fieldName : String)
    (fkLookup : Option (List (String × FKMetadata))) :
    (enhanceEdgeWithFK edge sourceType fieldName fkLookup).id = edge.id ∧
    (enhanceEdgeWithFK edge sourceType fieldName fkLookup).source = edge.source ∧
    (enhanceEdgeWithFK edge sourceType fieldName fkLookup).target = edge.target ∧
    ((∃ lk, fkLookup = some lk ∧
        ∃ m, lk.lookup (sourceType ++ "." ++ fieldName) = some m ∧
          (enhanceEdgeWithFK edge sourceType fieldName fkLookup).data = some
            { edge.data.getD EdgeData.empty with
              isFK := some true, fkMetadata := some m,
              direction := some m.direction, cardinality := some m.cardinality,
              sourceTable := some m.sourceTable, targetTable := some m.targetTable,
              isJunctionTable := m.isJunctionTable }) ∨
      ((enhanceEdgeWithFK edge sourceType fieldName fkLookup).data = some
          { edge.data.getD EdgeData.empty with isFK := some false } ∧
        (fkLookup = none ∨ ∃ lk, fkLookup = some lk ∧
          lk.lookup (sourceType ++ "." ++ fieldName) = none))) := by
  cases fkLookup with
  | none =>
    exact ⟨rfl, rfl, rfl, Or.inr ⟨rfl, Or.inl rfl⟩⟩
  | some lk =>
    cases h : lk.lookup (sourceType ++ "." ++ fieldName) with
    | none =>
      refine ⟨?_, ?_, ?_, ?_⟩
      · simp [enhanceEdgeWithFK, h]
      · simp [enhanceEdgeWithFK, h]
      · simp [enhanceEdgeWithFK, h]
      · right
        exact ⟨by simp [enhanceEdgeWithFK, h], Or.inr ⟨lk, rfl, h⟩⟩
    | some m =>
      refine ⟨?_, ?_, ?_, ?_⟩
      · simp [enhanceEdgeWithFK, h]
      · simp [enhanceEdgeWithFK, h]
      · simp [enhanceEdgeWithFK, h]
      · left
        exact ⟨lk, rfl, m, h, by simp [enhanceEdgeWithFK, h]⟩

/- ## Claim C5 -/

/-- `fkStep` keeps the processed-key list equal to the keys of the lookup
map. -/
theorem fkStep_keys (tableToType : String → Option String) (fk : PgForeignKey)
    (s : FKBuildState) (h : s.processedKeys = s.lookup.map Prod.fst) :
    (fkStep tableToType s fk).processedKeys =
      (fkStep tableToType s fk).lookup.map Prod.fst := by
  cases hsrc : tableToType fk.source_table with
  | none => simp [fkStep, hsrc, h]
  | some st =>
    cases htgt : tableToType fk.target_table with
    | none => simp [fkStep, hsrc, htgt, h]
    | some tt =>
      by_cases hm : (st ++ "." ++ inferFieldName fk.source_column) ∈ s.processedKeys
      · have hc : s.processedKeys.contains
            (st ++ "." ++ inferFieldName fk.source_column) = true :=
          List.elem_eq_true_of_mem hm
        simp only [fkStep, hsrc, htgt, hc]
        simpa using h
      · have hc : s.processedKeys.contains
            (st ++ "." ++ inferFieldName fk.source_column) = false := by
          simpa using hm
        simp only [fkStep, hsrc, htgt, hc]
        simp [h]

/-- `fkStep` keeps the processed-key list duplicate-free. -/
theorem fkStep_nodup (tableToType : String → Option String) (fk : PgForeignKey)
    (s : FKBuildState) (h : s.processedKeys.Nodup) :
    (fkStep tableToType s fk).processedKeys.Nodup := by
  cases hsrc : tableToType fk.source_table with
  | none => simp [fkStep, hsrc, h]
  | some st =>
    cases htgt : tableToType fk.target_table with
    | none => simp [fkStep, hsrc, htgt, h]
    | some tt =>
      by_cases hm : (st ++ "." ++ inferFieldName fk.source_column) ∈ s.processedKeys
      · have hc : s.processedKeys.contains
            (st ++ "." ++ inferFieldName fk.source_column) = true :=
          List.elem_eq_true_of_mem hm
        simp only [fkStep, hsrc, htgt, hc]
        simpa using h
      · have hc : s.processedKeys.contains
            (st ++ "." ++ inferFieldName fk.source_column) = false := by
          simpa using hm
        simp only [fkStep, hsrc, htgt, hc]
        simp [List.nodup_append, h, hm]

/-- The fold of `fkStep` preserves both invariants together. -/
theorem fkFold_inv (tableToType : String → Option String) :
    ∀ (l : List PgForeignKey) (s : FKBuildState),
      s.processedKeys = s.lookup.map Prod.fst → s.processedKeys.Nodup →
      (l.foldl (fkStep tableToType) s).processedKeys =
          (l.foldl (fkStep tableToType) s).lookup.map Prod.fst ∧
        (l.foldl (fkStep tableToType) s).processedKeys.Nodup := by
  intro l
  induction l with
  | nil => intro s h1 h2; exact ⟨h1, h2⟩
  | cons fk rest ih =>
    intro s h1 h2
    exact ih _ (fkStep_keys tableToType fk s h1) (fkStep_nodup tableToType fk s h2)

/-- Zero out the (fold-invariant) `totalFKs` field, to compare runs of the
FK fold that start from different row counts. -/
def eraseTotal (s : FKBuildState) : FKBuildState :=
  { s with stats := { s.stats with totalFKs := 0 } }

theorem fkStep_eraseTotal (tableToType : String → Option String)
    (fk : PgForeignKey) (s : FKBuildState) :
    fkStep tableToType (eraseTotal s) fk = eraseTotal (fkStep tableToType s fk) := by
  cases hsrc : tableToType fk.source_table with
  | none => simp [fkStep, hsrc, eraseTotal]
  | some st =>
    cases htgt : tableToType fk.target_table with
    | none => simp [fkStep, hsrc, htgt, eraseTotal]
    | some tt =>
      by_cases hm : (st ++ "." ++ inferFieldName fk.source_column) ∈ s.processedKeys
      · have hc : s.processedKeys.contains
            (st ++ "." ++ inferFieldName fk.source_column) = true :=
          List.elem_eq_true_of_mem hm
        simp [fkStep, hsrc, htgt, hc, hm, eraseTotal]
      · have hc : s.processedKeys.contains
            (st ++ "." ++ inferFieldName fk.source_column) = false := by
          simpa using hm
        simp [fkStep, hsrc, htgt, hc, hm, eraseTotal]

theorem foldl_fkStep_eraseTotal (tableToType : String → Option String) :
    ∀ (l : List PgForeignKey) (s : FKBuildState),
      l.foldl (fkStep tableToType) (eraseTotal s) =
        eraseTotal (l.foldl (fkStep tableToType) s) := by
  intro l
  induction l with
  | nil => intro s; rfl
  | cons fk rest ih =>
    intro s
    simp only [List.foldl_cons]
    rw [fkStep_eraseTotal]
    exact ih _

theorem buildFK_lookup_eq (l : List PgForeignKey) (m : String → Option String) :
    (buildFKLookupMap l m).lookup = (l.foldl (fkStep m) (fkInit l)).lookup := rfl

theorem buildFK_parseErrors_eq (l : List PgForeignKey) (m : String → Option String) :
    (buildFKLookupMap l m).stats.parseErrors =
      (l.foldl (fkStep m) (fkInit l)).stats.parseErrors := rfl

/-- Claim C5: `buildFKLookupMap` never stores two rows under one lookup key
`"Type.field"`: the key list is duplicate-free, and appending a row whose
key is already present leaves the lookup map unchanged (first-write-wins)
while incrementing `stats.parseErrors` by one. -/
theorem claim5_fk_first_write_wins (foreignKeys : List PgForeignKey)
    (tableToType : String → Option String) :
    ((buildFKLookupMap foreignKeys tableToType).lookup.map Prod.fst).Nodup ∧
    (∀ fk k, fkForwardKey tableToType fk = some k →
      k ∈ (buildFKLookupMap foreignKeys tableToType).lookup.map Prod.fst →
      (buildFKLookupMap (foreignKeys ++ [fk]) tableToType).lookup =
        (buildFKLookupMap foreignKeys tableToType).lookup ∧
      (buildFKLookupMap (foreignKeys ++ [fk]) tableToType).stats.parseErrors =
        (buildFKLookupMap foreignKeys tableToType).stats.parseErrors + 1) := by
  have hinv := fkFold_inv tableToType foreignKeys (fkInit foreignKeys) rfl List.nodup_nil
  constructor
  · rw [buildFK_lookup_eq]
    rw [← hinv.1]
    exact hinv.2
  · intro fk k hkey hmem
    cases hsrc : tableToType fk.source_table with
    | none => rw [fkForwardKey, hsrc] at hkey; simp at hkey
    | some st =>
      cases htgt : tableToType fk.target_table with
      | none => rw [fkForwardKey, hsrc, htgt] at hkey; simp at hkey
      | some tt =>
        rw [fkForwardKey, hsrc, htgt] at hkey
        simp only [Option.some.injEq] at hkey
        rw [buildFK_lookup_eq] at hmem
        have hmemP : k ∈ (foreignKeys.foldl (fkStep tableToType)
            (fkInit foreignKeys)).processedKeys := by
          rw [hinv.1]; exact hmem
        rw [← hkey] at hmemP
        have hc : (foreignKeys.foldl (fkStep tableToType)
            (fkInit foreignKeys)).processedKeys.contains
            (st ++ "." ++ inferFieldName fk.source_column) = true :=
          List.elem_eq_true_of_mem hmemP
        have hstepL : (fkStep tableToType
            (foreignKeys.foldl (fkStep tableToType) (fkInit foreignKeys)) fk).lookup =
            (foreignKeys.foldl (fkStep tableToType) (fkInit foreignKeys)).lookup := by
          simp [fkStep, hsrc, htgt, hc, hmemP]
        have hstepP : (fkStep tableToType
            (foreignKeys.foldl (fkStep tableToType) (fkInit foreignKeys)) fk).stats.parseErrors =
            (foreignKeys.foldl (fkStep tableToType)
              (fkInit foreignKeys)).stats.parseErrors + 1 := by
          simp [fkStep, hsrc, htgt, hc, hmemP]
        have e2 : eraseTotal ((foreignKeys ++ [fk]).foldl (fkStep tableToType)
            (fkInit (foreignKeys ++ [fk]))) =
            eraseTotal (fkStep tableToType
              (foreignKeys.foldl (fkStep tableToType) (fkInit foreignKeys)) fk) := by
          have e1 : eraseTotal (fkInit (foreignKeys ++ [fk])) =
              eraseTotal (fkInit foreignKeys) := rfl
          calc eraseTotal ((foreignKeys ++ [fk]).foldl (fkStep tableToType)
                (fkInit (foreignKeys ++ [fk])))
              = (foreignKeys ++ [fk]).foldl (fkStep tableToType)
                (eraseTotal (fkInit (foreignKeys ++ [fk]))) :=
                (foldl_fkStep_eraseTotal tableToType _ _).symm
            _ = (foreignKeys ++ [fk]).foldl (fkStep tableToType)
                (eraseTotal (fkInit foreignKeys)) := by rw [e1]
            _ = eraseTotal ((foreignKeys ++ [fk]).foldl (fkStep tableToType)
                (fkInit foreignKeys)) := foldl_fkStep_eraseTotal tableToType _ _
            _ = eraseTotal (fkStep tableToType
                (foreignKeys.foldl (fkStep tableToType) (fkInit foreignKeys)) fk) := by
                rw [List.foldl_append]
                rfl
        have eL : ((foreignKeys ++ [fk]).foldl (fkStep tableToType)
            (fkInit (foreignKeys ++ [fk]))).lookup =
            (fkStep tableToType
              (foreignKeys.foldl (fkStep tableToType) (fkInit foreignKeys)) fk).lookup := by
          have := congrArg FKBuildState.lookup e2
          simpa [eraseTotal] using this
        have eP : ((foreignKeys ++ [fk]).foldl (fkStep tableToType)
            (fkInit (foreignKeys ++ [fk]))).stats.parseErrors =
            (fkStep tableToType
              (foreignKeys.foldl (fkStep tableToType)
                (fkInit foreignKeys)) fk).stats.parseErrors := by
          have := congrArg (fun x => x.stats.parseErrors) e2
          simpa [eraseTotal] using this
        constructor
        · rw [buildFK_lookup_eq, buildFK_lookup_eq, eL, hstepL]
        · rw [buildFK_parseErrors_eq, buildFK_parseErrors_eq, eP, hstepP]

/-- The name mapper used by the C5 witness. -/
def mapper0 (t : String) : Option String :=
  if t == "dcim_device" then some "DeviceType"
  else if t == "dcim_manufacturer" then some "ManufacturerType"
  else none

/-- The FK row used by the C5 witness. -/
def fkRow0 : PgForeignKey :=
  { source_table := "dcim_device", source_column := "manufacturer_id",
    target_table := "dcim_manufacturer", target_column := "id" }

/-- Witness for C5: duplicating a concrete row leaves the single lookup
entry in place and counts one parse error. -/
theorem claim5_fk_first_write_wins_witness :
    (buildFKLookupMap [fkRow0, fkRow0] mapper0).lookup =
      (buildFKLookupMap [fkRow0] mapper0).lookup ∧
    (buildFKLookupMap [fkRow0, fkRow0] mapper0).stats.parseErrors =
      (buildFKLookupMap [fkRow0] mapper0).stats.parseErrors + 1 := by
  have h := (claim5_fk_first_write_wins [fkRow0] mapper0).2 fkRow0
    "DeviceType.manufacturer" (by decide) (by decide)
  exact h

/- ## Claim C7 -/

/-- Counterexample for C7: two distinct discovered type names,
`"Device_roleType"` and `"DeviceRoleType"`, both map through `typeToTable`
to the same table `"dcim_device_role"`, so the Name Mapper is not 1:1, and
the round trip returns the wrong type name for one of them. -/
theorem claim7_counterexample :
    (buildNameMapper ["Device_roleType", "DeviceRoleType"]).1.typeToTable
        "Device_roleType" = some "dcim_device_role" ∧
    (buildNameMapper ["Device_roleType", "DeviceRoleType"]).1.typeToTable
        "DeviceRoleType" = some "dcim_device_role" ∧
    ("Device_roleType" : String) ≠ "DeviceRoleType" ∧
    (buildNameMapper ["Device_roleType", "DeviceRoleType"]).1.tableToType
        "dcim_device_role" = some "DeviceRoleType" := by
  decide

/-- Every entry of either map of the built Name Mapper records a processed
typename together with its inferred table name, and the paired entry is in
the opposite map. -/
theorem nm_fold_inv (S : String → Prop) :
    ∀ (l : List String) (acc : NameMapper × NameMapperStats),
      (∀ t ∈ l, S t) →
      (∀ p ∈ acc.1.tableToTypeMap, S p.2 ∧ inferTableNameFromType p.2 = some p.1 ∧
        (p.2, p.1) ∈ acc.1.typeToTableMap) →
      (∀ p ∈ acc.1.typeToTableMap, S p.1 ∧ inferTableNameFromType p.1 = some p.2 ∧
        (p.2, p.1) ∈ acc.1.tableToTypeMap) →
      (∀ p ∈ (l.foldl nmStep acc).1.tableToTypeMap,
        S p.2 ∧ inferTableNameFromType p.2 = some p.1 ∧
          (p.2, p.1) ∈ (l.foldl nmStep acc).1.typeToTableMap) ∧
      (∀ p ∈ (l.foldl nmStep acc).1.typeToTableMap,
        S p.1 ∧ inferTableNameFromType p.1 = some p.2 ∧
          (p.2, p.1) ∈ (l.foldl nmStep acc).1.tableToTypeMap) := by
  intro l
  induction l with
  | nil => intro acc _ h1 h2; exact ⟨h1, h2⟩
  | cons t rest ih =>
    intro acc hS h1 h2
    simp only [List.foldl_cons]
    refine ih (nmStep acc t) (fun u hu => hS u (List.mem_cons_of_mem _ hu)) ?_ ?_
    · intro p hp
      cases hinf : inferTableNameFromType t with
      | none =>
        simp only [nmStep, hinf] at hp
        obtain ⟨a, b, c⟩ := h1 p hp
        exact ⟨a, b, by simp only [nmStep, hinf]; exact c⟩
      | some tbl =>
        simp only [nmStep, hinf, NameMapper.addMapping] at hp
        rcases List.mem_cons.mp hp with hp1 | hp2
        · subst hp1
          refine ⟨hS t (List.mem_cons_self _ _), hinf, ?_⟩
          simp only [nmStep, hinf, NameMapper.addMapping]
          exact List.mem_cons_self _ _
        · obtain ⟨a, b, c⟩ := h1 p hp2
          refine ⟨a, b, ?_⟩
          simp only [nmStep, hinf, NameMapper.addMapping]
          exact List.mem_cons_of_mem _ c
    · intro p hp
      cases hinf : inferTableNameFromType t with
      | none =>
        simp only [nmStep, hinf] at hp
        obtain ⟨a, b, c⟩ := h2 p hp
        exact ⟨a, b, by simp only [nmStep, hinf]; exact c⟩
      | some tbl =>
        simp only [nmStep, hinf, NameMapper.addMapping] at hp
        rcases List.mem_cons.mp hp with hp1 | hp2
        · subst hp1
          refine ⟨hS t (List.mem_cons_self _ _), hinf, ?_⟩
          simp only [nmStep, hinf, NameMapper.addMapping]
          exact List.mem_cons_self _ _
        · obtain ⟨a, b, c⟩ := h2 p hp2
          refine ⟨a, b, ?_⟩
          simp only [nmStep, hinf, NameMapper.addMapping]
          exact List.mem_cons_of_mem _ c

/-- The two conclusions of `nm_fold_inv` for the built mapper, with
membership in the input list as the side condition. -/
theorem buildNameMapper_inv (typenames : List String) :
    (∀ p ∈ (buildNameMapper typenames).1.tableToTypeMap,
      p.2 ∈ typenames ∧ inferTableNameFromType p.2 = some p.1 ∧
        (p.2, p.1) ∈ (buildNameMapper typenames).1.typeToTableMap) ∧
    (∀ p ∈ (buildNameMapper typenames).1.typeToTableMap,
      p.1 ∈ typenames ∧ inferTableNameFromType p.1 = some p.2 ∧
        (p.2, p.1) ∈ (buildNameMapper typenames).1.tableToTypeMap) := by
  have h := nm_fold_inv (fun t => t ∈ typenames) typenames (⟨[], []⟩, ⟨0, 0, 0⟩)
    (fun t ht => ht) (by intro p hp; simp at hp) (by intro p hp; simp at hp)
  exact h

/-- Claim C7 (amended): provided no two distinct discovered type names infer
the same table name, the built Name Mapper is 1:1 in each direction and the
two directions are mutually inverse on type names carrying the `Type`
suffix.  (Unamended, the claim fails: see the counterexample.) -/
theorem claim7_name_mapper_amended (typenames : List String)
    (H : ∀ T₁, T₁ ∈ typenames → ∀ T₂, T₂ ∈ typenames → ∀ t,
      inferTableNameFromType T₁ = some t → inferTableNameFromType T₂ = some t →
      T₁ = T₂) :
    (∀ t₁ t₂ T, (buildNameMapper typenames).1.tableToType t₁ = some T →
      (buildNameMapper typenames).1.tableToType t₂ = some T → t₁ = t₂) ∧
    (∀ T₁ T₂ t, strEndsWith T₁ "Type" = true → strEndsWith T₂ "Type" = true →
      (buildNameMapper typenames).1.typeToTable T₁ = some t →
      (buildNameMapper typenames).1.typeToTable T₂ = some t → T₁ = T₂) ∧
    (∀ t T, strEndsWith T "Type" = true →
      (buildNameMapper typenames).1.tableToType t = some T →
      (buildNameMapper typenames).1.typeToTable T = some t) ∧
    (∀ T t, strEndsWith T "Type" = true →
      (buildNameMapper typenames).1.typeToTable T = some t →
      (buildNameMapper typenames).1.tableToType t = some T) := by
  obtain ⟨hTab, hTyp⟩ := buildNameMapper_inv typenames
  refine ⟨?_, ?_, ?_, ?_⟩
  · intro t₁ t₂ T ha hb
    rw [NameMapper.tableToType] at ha hb
    obtain ⟨_, hia, _⟩ := hTab _ (lookup_mem ha)
    obtain ⟨_, hib, _⟩ := hTab _ (lookup_mem hb)
    have := hia.symm.trans hib
    exact (Option.some.injEq _ _).mp this
  · intro T₁ T₂ t hE₁ hE₂ ha hb
    rw [NameMapper.typeToTable] at ha hb
    rw [if_pos hE₁] at ha
    rw [if_pos hE₂] at hb
    obtain ⟨hm₁, hi₁, _⟩ := hTyp _ (lookup_mem ha)
    obtain ⟨hm₂, hi₂, _⟩ := hTyp _ (lookup_mem hb)
    exact H T₁ hm₁ T₂ hm₂ t hi₁ hi₂
  · intro t T hE ha
    rw [NameMapper.tableToType] at ha
    obtain ⟨_, hi, hcross⟩ := hTab _ (lookup_mem ha)
    rw [NameMapper.typeToTable, if_pos hE]
    have hsome := lookup_isSome_of_mem hcross
    obtain ⟨v, hv⟩ := Option.isSome_iff_exists.mp hsome
    obtain ⟨_, hiv, _⟩ := hTyp _ (lookup_mem hv)
    have : some v = some t := hiv.symm.trans hi
    rw [hv, this]
  · intro T t hE ha
    rw [NameMapper.typeToTable, if_pos hE] at ha
    obtain ⟨hmT, hiT, hcross⟩ := hTyp _ (lookup_mem ha)
    rw [NameMapper.tableToType]
    have hsome := lookup_isSome_of_mem hcross
    obtain ⟨w, hw⟩ := Option.isSome_iff_exists.mp hsome
    obtain ⟨hmw, hiw, _⟩ := hTab _ (lookup_mem hw)
    have : w = T := H w hmw T hmT t hiw hiT
    rw [hw, this]

/-- Witness for C7 (amended): on the singleton discovered list
`["DeviceType"]` the hypothesis holds and the round trip is exact. -/
theorem claim7_name_mapper_amended_witness :
    (buildNameMapper ["DeviceType"]).1.tableToType "dcim_device" =
      some "DeviceType" := by
  have H : ∀ T₁, T₁ ∈ ["DeviceType"] → ∀ T₂, T₂ ∈ ["DeviceType"] → ∀ t,
      inferTableNameFromType T₁ = some t → inferTableNameFromType T₂ = some t →
      T₁ = T₂ := by
    intro T₁ h₁ T₂ h₂ t _ _
    simp only [List.mem_singleton] at h₁ h₂
    rw [h₁, h₂]
  exact (claim7_name_mapper_amended ["DeviceType"] H).2.2.2 "DeviceType"
    "dcim_device" (by decide) (by decide)

/- ## Pass 1 invariant machinery -/

theorem createNodeForType_typeData (t : String) (d : Nat)
    (options : TransformOptions) (s : Pass1State) :
    (createNodeForType t d options s).typeData = s.typeData := by
  unfold createNodeForType
  split
  · rfl
  · split
    · rfl
    · split <;> rfl

theorem mem_nodes_createNodeForType {n : GraphNode} (t : String) (d : Nat)
    (options : TransformOptions) (s : Pass1State)
    (h : n ∈ (createNodeForType t d options s).nodes) :
    n ∈ s.nodes ∨ n = createNode t none d (d == 0) options := by
  unfold createNodeForType at h
  split at h
  · exact Or.inl h
  · split at h
    · exact Or.inl h
    · split at h
      · exact Or.inl h
      · rcases List.mem_append.mp h with h1 | h2
        · exact Or.inl h1
        · exact Or.inr (List.mem_singleton.mp h2)

theorem fetchStep_nodes (fetchTypes : Option TypeFetcher) (ts : List String)
    (s : Pass1State) : (fetchStep fetchTypes ts s).nodes = s.nodes := by
  unfold fetchStep
  dsimp only
  split
  · rfl
  · split <;> rfl

theorem fetchStep_visited (fetchTypes : Option TypeFetcher) (ts : List String)
    (s : Pass1State) : (fetchStep fetchTypes ts s).visited = s.visited := by
  unfold fetchStep
  dsimp only
  split
  · rfl
  · split <;> rfl

theorem fetchStep_nodesPerDepth (fetchTypes : Option TypeFetcher)
    (ts : List String) (s : Pass1State) :
    (fetchStep fetchTypes ts s).stats.nodesPerDepth = s.stats.nodesPerDepth := by
  unfold fetchStep
  dsimp only
  split
  · rfl
  · split <;> rfl

/-- A state predicate preserved by every node-creation step and by every
fetch step is preserved by the whole Pass 1 loop. -/
theorem pass1Go_preserve (options : TransformOptions)
    (fetchTypes : Option TypeFetcher) (P : Pass1State → Prop)
    (hc : ∀ t d s, P s → P (createNodeForType t d options s))
    (hfetch : ∀ ts s, P s → P (fetchStep fetchTypes ts s)) :
    ∀ (fuel depth : Nat) (currentTypes : List String) (s : Pass1State),
      P s → P (pass1Go options fetchTypes fuel depth currentTypes s) := by
  intro fuel
  induction fuel with
  | zero => intro d ct s h; exact h
  | succ n ih =>
    intro d ct s h
    rw [pass1Go]
    split
    · exact h
    · apply ih
      have hfold : ∀ (l : List String) (s' : Pass1State), P s' →
          P (l.foldl (fun st t => createNodeForType t d options st) s') := by
        intro l
        induction l with
        | nil => intro s' h'; exact h'
        | cons x xs ihx => intro s' h'; exact ihx _ (hc x d s' h')
      exact hfold _ _ (hfetch _ _ h)

/-- Shape of every node created in Pass 1: its id is the root-form node id
of its typename and depth, and its primary flag is the checker applied to
its typename. -/
def nodeOk (options : TransformOptions) (n : GraphNode) : Prop :=
  n.id = generateNodeId n.data.typename none n.data.depth ∧
  n.data.isPrimaryModel = primaryOf options n.data.typename

theorem pass1Final_nodeOk (rootTypes : List String) (typeData : TypeMap)
    (options : TransformOptions) (fetchTypes : Option TypeFetcher) :
    ∀ n ∈ (pass1Final rootTypes typeData options fetchTypes).nodes,
      nodeOk options n := by
  have h := pass1Go_preserve options fetchTypes
    (fun s => ∀ n ∈ s.nodes, nodeOk options n) ?_ ?_
    options.maxDepth 0 rootTypes
    { typeData := typeData, nodes := [], visited := [],
      stats := { filteredNodes := 0, nodesPerDepth := [], typesFetched := 0 } }
    ?_
  · exact h
  · intro t d s hs n hn
    rcases mem_nodes_createNodeForType t d options s hn with h1 | h2
    · exact hs n h1
    · subst h2
      exact ⟨rfl, rfl⟩
  · intro ts s hs n hn
    rw [fetchStep_nodes] at hn
    exact hs n hn
  · intro n hn
    simp at hn

/- ## Decimal strings contain no separator characters -/

theorem digitChar_ne_colon (d : Nat) : digitChar d ≠ ':' := by
  unfold digitChar
  split <;> decide

theorem natDecGo_colonFree : ∀ (fuel n : Nat), ':' ∉ natDecGo fuel n := by
  intro fuel
  induction fuel with
  | zero => intro n h; simp [natDecGo] at h
  | succ m ih =>
    intro n h
    rw [natDecGo] at h
    split at h
    · rcases List.mem_singleton.mp h with h1
      exact digitChar_ne_colon n h1.symm
    · rcases List.mem_append.mp h with h1 | h2
      · exact ih _ h1
      · exact digitChar_ne_colon _ (List.mem_singleton.mp h2).symm

theorem natDecStr_colonFree (n : Nat) : ':' ∉ (natDecStr n).data :=
  natDecGo_colonFree (n + 1) n

/-- Taking while not-colon over a colon-free list followed by a colon
recovers the list. -/
theorem takeWhile_colonFree :
    ∀ (a rest : List Char), ':' ∉ a →
      (a ++ ':' :: rest).takeWhile (fun c => c != ':') = a := by
  intro a
  induction a with
  | nil =>
    intro rest _
    simp [List.takeWhile]
  | cons x xs ih =>
    intro rest h
    have hx : x ≠ ':' := fun hc => h (hc ▸ List.mem_cons_self x xs)
    have hxs : ':' ∉ xs := fun hc => h (List.mem_cons_of_mem _ hc)
    have hb : (x != ':') = true := by simpa using hx
    rw [List.cons_append, List.takeWhile_cons, hb, if_pos rfl, ih rest hxs]

/-- The string data of a root-form node id, as an explicit concatenation. -/
theorem generateNodeId_data (t : String) (d : Nat) :
    (generateNodeId t none d).data =
      t.data ++ ':' :: 'r' :: 'o' :: 'o' :: 't' :: ':' :: (natDecStr d).data := by
  show (t ++ ":" ++ "root" ++ ":" ++ natDecStr d).data = _
  rw [String.data_append, String.data_append, String.data_append, String.data_append]
  show t.data ++ [':'] ++ ['r', 'o', 'o', 't'] ++ [':'] ++ (natDecStr d).data = _
  simp

/-- Two root-form node ids with equal strings have the same typename. -/
theorem generateNodeId_inj_typename (t₁ t₂ : String) (d₁ d₂ : Nat)
    (h : generateNodeId t₁ none d₁ = generateNodeId t₂ none d₂) : t₁ = t₂ := by
  have hd : (generateNodeId t₁ none d₁).data = (generateNodeId t₂ none d₂).data := by
    rw [h]
  rw [generateNodeId_data, generateNodeId_data] at hd
  have hrev := congrArg List.reverse hd
  simp only [List.reverse_append, List.reverse_cons] at hrev
  have hr₁ : ':' ∉ (natDecStr d₁).data.reverse := by
    intro hc
    exact natDecStr_colonFree d₁ (List.mem_reverse.mp hc)
  have hr₂ : ':' ∉ (natDecStr d₂).data.reverse := by
    intro hc
    exact natDecStr_colonFree d₂ (List.mem_reverse.mp hc)
  have e₁ : (natDecStr d₁).data.reverse ++
      ':' :: 't' :: 'o' :: 'o' :: 'r' :: ':' :: t₁.data.reverse =
      ((t₁.data ++ ':' :: 'r' :: 'o' :: 'o' :: 't' :: ':' :: (natDecStr d₁).data).reverse) := by
    simp
  have e₂ : (natDecStr d₂).data.reverse ++
      ':' :: 't' :: 'o' :: 'o' :: 'r' :: ':' :: t₂.data.reverse =
      ((t₂.data ++ ':' :: 'r' :: 'o' :: 'o' :: 't' :: ':' :: (natDecStr d₂).data).reverse) := by
    simp
  have hrev' : (natDecStr d₁).data.reverse ++
      ':' :: 't' :: 'o' :: 'o' :: 'r' :: ':' :: t₁.data.reverse =
      (natDecStr d₂).data.reverse ++
      ':' :: 't' :: 'o' :: 'o' :: 'r' :: ':' :: t₂.data.reverse := by
    rw [e₁, e₂, hd]
  have htake := congrArg (List.takeWhile (fun c => c != ':')) hrev'
  rw [takeWhile_colonFree _ _ hr₁, takeWhile_colonFree _ _ hr₂] at htake
  have hrd : (natDecStr d₁).data = (natDecStr d₂).data := by
    have := congrArg List.reverse htake
    simpa using this
  rw [hrd] at hd
  have ht : t₁.data = t₂.data := by
    have := List.append_inj_left' hd (by simp)
    exact this
  exact congrArg String.mk ht

/- ## Pass 2 lemmas -/

theorem nodeMapGet_mem {nodes : List GraphNode} {key : String} {c : GraphNode}
    (h : nodeMapGet nodes key = some c) : c ∈ nodes := by
  unfold nodeMapGet at h
  exact List.mem_reverse.mp (List.mem_of_find?_eq_some h)

theorem mem_edgesForParent {e : GraphEdge} (nodes : List GraphNode)
    (typeData : TypeMap) (options : TransformOptions) (parentNode : GraphNode)
    (h : e ∈ edgesForParent nodes typeData options parentNode) :
    parentNode.data.isPrimaryModel = true ∧ e.source = parentNode.id ∧
      ∃ c ∈ nodes, e.target = c.id := by
  unfold edgesForParent at h
  split at h
  · simp at h
  · rename_i hflag
    have hp : parentNode.data.isPrimaryModel = true := by simpa using hflag
    split at h
    · simp at h
    · rcases List.mem_filterMap.mp h with ⟨field, _, hf⟩
      dsimp only at hf
      split at hf
      · simp at hf
      · split at hf
        · rename_i childNode hchild
          simp only [Option.some.injEq] at hf
          subst hf
          exact ⟨hp, rfl, childNode, nodeMapGet_mem hchild, rfl⟩
        · simp at hf

theorem mem_createEdges {e : GraphEdge} (nodes : List GraphNode)
    (typeData : TypeMap) (options : TransformOptions)
    (h : e ∈ (createEdgesBetweenNodes nodes typeData options).1) :
    ∃ p ∈ nodes, p.data.isPrimaryModel = true ∧ e.source = p.id ∧
      ∃ c ∈ nodes, e.target = c.id := by
  unfold createEdgesBetweenNodes at h
  simp only [List.mem_flatten, List.mem_map] at h
  obtain ⟨l, ⟨p, hp, hl⟩, hel⟩ := h
  subst hl
  obtain ⟨h1, h2, h3⟩ := mem_edgesForParent nodes typeData options p hel
  exact ⟨p, hp, h1, h2, h3⟩

/- ## Claim C4 -/

/-- Claim C4: every edge of the result references node ids present in the
returned node list at both ends: an edge exists only between two nodes
actually created in Pass 1. -/
theorem claim4_no_dangling_edges (rootTypes : List String) (typeData : TypeMap)
    (options : TransformOptions) (fetchTypes : Option TypeFetcher) :
    ∀ e ∈ (buildGraphFromIntrospection rootTypes typeData options fetchTypes).edges,
      (∃ n ∈ (buildGraphFromIntrospection rootTypes typeData options fetchTypes).nodes,
        e.source = n.id) ∧
      (∃ n ∈ (buildGraphFromIntrospection rootTypes typeData options fetchTypes).nodes,
        e.target = n.id) := by
  intro e he
  obtain ⟨p, hp, _, hsrc, c, hc, htgt⟩ := mem_createEdges
    (pass1Final rootTypes typeData options fetchTypes).nodes
    (pass1Final rootTypes typeData options fetchTypes).typeData options he
  exact ⟨⟨p, hp, hsrc⟩, ⟨c, hc, htgt⟩⟩

/-- The first edge of the end-to-end A graph. -/
def edgeA0 : GraphEdge :=
  { id := "DeviceType:root:0-[manufacturer]-to-ManufacturerType:root:1",
    source := "DeviceType:root:0", target := "ManufacturerType:root:1",
    edgeType := "default", data := none }

/-- Witness for C4: the theorem applied to the first end-to-end A edge
shows both of its endpoints among the returned node ids. -/
theorem claim4_no_dangling_edges_witness :
    ((buildGraphFromIntrospection ["DeviceType"] cacheA optsA none).nodes.map
      (fun n => n.id)).contains edgeA0.source = true ∧
    ((buildGraphFromIntrospection ["DeviceType"] cacheA optsA none).nodes.map
      (fun n => n.id)).contains edgeA0.target = true := by
  obtain ⟨⟨n₁, hn₁, hs⟩, ⟨n₂, hn₂, ht⟩⟩ :=
    claim4_no_dangling_edges ["DeviceType"] cacheA optsA none edgeA0 (by decide)
  constructor
  · exact List.elem_eq_true_of_mem
      (hs ▸ List.mem_map_of_mem (fun n => n.id) hn₁)
  · exact List.elem_eq_true_of_mem
      (ht ▸ List.mem_map_of_mem (fun n => n.id) hn₂)

/- ## Claim C3 -/

/-- The number of relationship fields of a type as found in a type cache. -/
def relationshipFieldCount (typeData : TypeMap) (typename : String) : Nat :=
  match typeData.lookup typename with
  | none => 0
  | some typeInfo => (extractRelationshipFields typeInfo).length

theorem skippedForParent_eq (typeData : TypeMap) (n : GraphNode) :
    skippedForParent typeData n =
      if n.data.isPrimaryModel then 0
      else relationshipFieldCount typeData n.data.typename := rfl

theorem sum_map_if_filter (l : List GraphNode) (p : GraphNode → Bool)
    (g : GraphNode → Nat) :
    (l.map (fun x => if p x then 0 else g x)).sum =
      ((l.filter (fun x => !p x)).map g).sum := by
  induction l with
  | nil => rfl
  | cons x xs ih =>
    cases hp : p x <;> simp [hp, ih]

/-- Claim C3: no edge of the result has a non-primary node as its source
(such nodes are leaves), and `edgesSkippedNonPrimary` counts exactly one
per relationship field of each non-primary node; on the end-to-end B input
the result is 3 nodes, 0 edges and `edgesSkippedNonPrimary = 2`. -/
theorem claim3_non_primary_leaves (rootTypes : List String) (typeData : TypeMap)
    (options : TransformOptions) (fetchTypes : Option TypeFetcher) :
    (∀ e ∈ (buildGraphFromIntrospection rootTypes typeData options fetchTypes).edges,
      ∀ n ∈ (buildGraphFromIntrospection rootTypes typeData options fetchTypes).nodes,
        n.id = e.source → n.data.isPrimaryModel = true) ∧
    (buildGraphFromIntrospection rootTypes typeData options
        fetchTypes).stats.edgesSkippedNonPrimary =
      (((buildGraphFromIntrospection rootTypes typeData options fetchTypes).nodes.filter
          (fun n => !n.data.isPrimaryModel)).map
        (fun n => relationshipFieldCount
          (pass1Final rootTypes typeData options fetchTypes).typeData
          n.data.typename)).sum ∧
    ((buildGraphFromIntrospection ["DeviceType"] cacheA optsB none).nodes.length = 3 ∧
      (buildGraphFromIntrospection ["DeviceType"] cacheA optsB none).edges = [] ∧
      (buildGraphFromIntrospection ["DeviceType"] cacheA
        optsB none).stats.edgesSkippedNonPrimary = 2) := by
  refine ⟨?_, ?_, by decide⟩
  · intro e he n hn hid
    obtain ⟨p, hp, hprim, hsrc, _⟩ := mem_createEdges
      (pass1Final rootTypes typeData options fetchTypes).nodes
      (pass1Final rootTypes typeData options fetchTypes).typeData options he
    have hnOk := pass1Final_nodeOk rootTypes typeData options fetchTypes n hn
    have hpOk := pass1Final_nodeOk rootTypes typeData options fetchTypes p hp
    have hideq : generateNodeId n.data.typename none n.data.depth =
        generateNodeId p.data.typename none p.data.depth := by
      rw [← hnOk.1, ← hpOk.1, hid, hsrc]
    have hty := generateNodeId_inj_typename _ _ _ _ hideq
    rw [hnOk.2, hty, ← hpOk.2]
    exact hprim
  · show ((pass1Final rootTypes typeData options fetchTypes).nodes.map
        (skippedForParent (pass1Final rootTypes typeData options fetchTypes).typeData)).sum = _
    have : ∀ n : GraphNode,
        skippedForParent (pass1Final rootTypes typeData options fetchTypes).typeData n =
        (fun x : GraphNode => if x.data.isPrimaryModel then 0
          else relationshipFieldCount
            (pass1Final rootTypes typeData options fetchTypes).typeData
            x.data.typename) n :=
      fun n => skippedForParent_eq _ n
    rw [List.map_congr_left (fun n _ => this n)]
    exact sum_map_if_filter _ _ _

/-- The DeviceType root node of end-to-end A. -/
def nodeA0 : GraphNode :=
  { id := "DeviceType:root:0", nodeType := "custom",
    data := { label := "Device", typename := "DeviceType", depth := 0,
              isRoot := true, fieldType := "object", isPrimaryModel := true } }

/-- Witness for C3: on end-to-end A the source node of the first edge is
primary. -/
theorem claim3_non_primary_leaves_witness :
    nodeA0.data.isPrimaryModel = true :=
  (claim3_non_primary_leaves ["DeviceType"] cacheA optsA none).1 edgeA0
    (by decide) nodeA0 (by decide) (by decide)

/- ## Claim C10 -/

/-- Total of the per-depth node counts. -/
def sumCounts (l : List (Nat × Nat)) : Nat :=
  (l.map Prod.snd).sum

theorem bumpDepthCount_sum (l : List (Nat × Nat)) (d : Nat) :
    sumCounts (bumpDepthCount l d) = sumCounts l + 1 := by
  induction l with
  | nil => rfl
  | cons p rest ih =>
    obtain ⟨k, v⟩ := p
    by_cases hk : k = d
    · simp [bumpDepthCount, hk, sumCounts]
      omega
    · simp [bumpDepthCount, hk, sumCounts] at ih ⊢
      omega

theorem createNodeForType_count (t : String) (d : Nat)
    (options : TransformOptions) (s : Pass1State)
    (h : sumCounts s.stats.nodesPerDepth = s.nodes.length) :
    sumCounts (createNodeForType t d options s).stats.nodesPerDepth =
      (createNodeForType t d options s).nodes.length := by
  unfold createNodeForType
  split
  · exact h
  · split
    · exact h
    · split
      · exact h
      · show sumCounts (bumpDepthCount s.stats.nodesPerDepth d) =
          (s.nodes ++ [_]).length
        rw [bumpDepthCount_sum, List.length_append, h]
        rfl

/-- Claim C10: the returned statistics are internally consistent with the
returned graph: `totalNodes` is the node-list length, `totalEdges` the
edge-list length, and the per-depth counts sum to `totalNodes`. -/
theorem claim10_stats_consistency (rootTypes : List String) (typeData : TypeMap)
    (options : TransformOptions) (fetchTypes : Option TypeFetcher) :
    (buildGraphFromIntrospection rootTypes typeData options fetchTypes).stats.totalNodes =
      (buildGraphFromIntrospection rootTypes typeData options fetchTypes).nodes.length ∧
    (buildGraphFromIntrospection rootTypes typeData options fetchTypes).stats.totalEdges =
      (buildGraphFromIntrospection rootTypes typeData options fetchTypes).edges.length ∧
    sumCounts (buildGraphFromIntrospection rootTypes typeData options
        fetchTypes).stats.nodesPerDepth =
      (buildGraphFromIntrospection rootTypes typeData options
        fetchTypes).stats.totalNodes := by
  refine ⟨rfl, rfl, ?_⟩
  have h := pass1Go_preserve options fetchTypes
    (fun s => sumCounts s.stats.nodesPerDepth = s.nodes.length)
    (fun t d s h => createNodeForType_count t d options s h)
    (fun ts s h => by
      show sumCounts (fetchStep fetchTypes ts s).stats.nodesPerDepth =
        (fetchStep fetchTypes ts s).nodes.length
      rw [fetchStep_nodesPerDepth, fetchStep_nodes]; exact h)
    options.maxDepth 0 rootTypes
    { typeData := typeData, nodes := [], visited := [],
      stats := { filteredNodes := 0, nodesPerDepth := [], typesFetched := 0 } }
    rfl
  exact h

/- ## Claim C6 -/

/-- Counterexample for C6: with the checker absent and depth 2 on the
end-to-end cache, the node list is not just the roots at depth 0 - the
depth-1 children are still created (three nodes, one of them at depth 1 and
not a root). -/
theorem claim6_counterexample :
    (buildGraphFromIntrospection ["DeviceType"] cacheA optsC none).nodes.length = 3 ∧
    (∃ n ∈ (buildGraphFromIntrospection ["DeviceType"] cacheA optsC none).nodes,
      n.data.depth = 1 ∧ n.data.isRoot = false) := by
  decide

/-- Claim C6 (amended): when `primaryModelChecker` is absent every node has
`isPrimaryModel = false` and the edge list is empty (the graph is isolated
nodes); nodes at depths beyond 0 are still created. -/
theorem claim6_absent_checker_amended (rootTypes : List String)
    (typeData : TypeMap) (options : TransformOptions)
    (fetchTypes : Option TypeFetcher)
    (h : options.primaryModelChecker = none) :
    (∀ n ∈ (buildGraphFromIntrospection rootTypes typeData options fetchTypes).nodes,
      n.data.isPrimaryModel = false) ∧
    (buildGraphFromIntrospection rootTypes typeData options fetchTypes).edges = [] := by
  have hflag : ∀ n ∈ (pass1Final rootTypes typeData options fetchTypes).nodes,
      n.data.isPrimaryModel = false := by
    intro n hn
    have hOk := pass1Final_nodeOk rootTypes typeData options fetchTypes n hn
    rw [hOk.2, primaryOf, h]
  constructor
  · exact hflag
  · show ((pass1Final rootTypes typeData options fetchTypes).nodes.map
      (edgesForParent (pass1Final rootTypes typeData options fetchTypes).nodes
        (pass1Final rootTypes typeData options fetchTypes).typeData options)).flatten = []
    rw [List.flatten_eq_nil_iff]
    intro l hl
    rcases List.mem_map.mp hl with ⟨p, hp, hpl⟩
    subst hpl
    unfold edgesForParent
    rw [if_pos]
    simp [hflag p hp]

/-- The DeviceType root node of the checker-absent build. -/
def nodeA0C : GraphNode :=
  { id := "DeviceType:root:0", nodeType := "custom",
    data := { label := "Device", typename := "DeviceType", depth := 0,
              isRoot := true, fieldType := "object", isPrimaryModel := false } }

/-- Witness for C6 (amended): the concrete checker-absent build has no
edges and its first node is not primary. -/
theorem claim6_absent_checker_amended_witness :
    (buildGraphFromIntrospection ["DeviceType"] cacheA optsC none).edges = [] ∧
    nodeA0C.data.isPrimaryModel = false := by
  have h := claim6_absent_checker_amended ["DeviceType"] cacheA optsC none rfl
  exact ⟨h.2, h.1 nodeA0C (by decide)⟩

/- ## Claim C2 machinery -/

theorem visitKeyOf_inj_same (t u : String) (d : Nat)
    (h : visitKeyOf t d = visitKeyOf u d) : t = u := by
  have hd : (visitKeyOf t d).data = (visitKeyOf u d).data := congrArg String.data h
  have e : ∀ a : String, (visitKeyOf a d).data =
      a.data ++ (':' :: (natDecStr d).data) := by
    intro a
    show (a ++ ":" ++ natDecStr d).data = _
    rw [String.data_append, String.data_append]
    rw [List.append_assoc]
    rfl
  rw [e t, e u] at hd
  have := List.append_inj_left' hd rfl
  exact congrArg String.mk this

theorem visitKey0_ne_key1 (a b : String) :
    visitKeyOf a 0 ≠ b ++ ":" ++ natDecStr 1 := by
  intro h
  have hd : (visitKeyOf a 0).data = (b ++ ":" ++ natDecStr 1).data :=
    congrArg String.data h
  have e1 : (visitKeyOf a 0).data = (a.data ++ [':']) ++ ['0'] := by
    show (a ++ ":" ++ natDecStr 0).data = _
    rw [String.data_append, String.data_append]
    simp [natDecStr, natDecGo, digitChar]
  have e2 : (b ++ ":" ++ natDecStr 1).data = (b.data ++ [':']) ++ ['1'] := by
    rw [String.data_append, String.data_append]
    simp [natDecStr, natDecGo, digitChar]
  rw [e1, e2] at hd
  have hlast := congrArg List.getLast? hd
  rw [List.getLast?_concat, List.getLast?_concat] at hlast
  simp at hlast

/-- Pass 2 creates no edge when every node sits at depth 0: every candidate
child key mentions depth 1 and no node carries it. -/
theorem edges_nil_of_depth0 (nodes : List GraphNode) (typeData : TypeMap)
    (options : TransformOptions)
    (hd : ∀ n ∈ nodes, n.data.depth = 0) :
    (createEdgesBetweenNodes nodes typeData options).1 = [] := by
  show (nodes.map (edgesForParent nodes typeData options)).flatten = []
  rw [List.flatten_eq_nil_iff]
  intro l hl
  rcases List.mem_map.mp hl with ⟨p, hp, hpl⟩
  subst hpl
  unfold edgesForParent
  split
  · rfl
  · split
    · rfl
    · rw [List.filterMap_eq_nil_iff]
      intro field _
      dsimp only
      split
      · rfl
      · have hchild : nodeMapGet nodes ((unwrapType field.type).name ++ ":" ++
            natDecStr (p.data.depth + 1)) = none := by
          unfold nodeMapGet
          rw [List.find?_eq_none]
          intro n hn
          have hn0 : n.data.depth = 0 := hd n (List.mem_reverse.mp hn)
          have hkey : nodeKeyOf n = visitKeyOf n.data.typename 0 := by
            unfold nodeKeyOf
            rw [hn0]
          have hp0 : p.data.depth = 0 := hd p hp
          rw [hp0]
          intro hbeq
          have heq : nodeKeyOf n = (unwrapType field.type).name ++ ":" ++ natDecStr 1 := by
            simpa using hbeq
          rw [hkey] at heq
          exact visitKey0_ne_key1 _ _ heq
        rw [hchild]

/-- Invariant preserved by processing one root at depth 0: the cache is
unchanged, every node is a depth-0 root for a resolvable member of the root
set, each typename has exactly one node once its visit key is recorded and
its type resolves, the processed key becomes visited, and the visited set
only grows. -/
theorem c2_step (options : TransformOptions) (hmd : 0 < options.maxDepth)
    (R : TypeMap) (roots₀ : List String) (u : String) (hu : u ∈ roots₀)
    (s : Pass1State) (hR : s.typeData = R)
    (hshape : ∀ n ∈ s.nodes, n.data.depth = 0 ∧ n.data.isRoot = true ∧
      n.data.typename ∈ roots₀ ∧ (R.lookup n.data.typename).isSome = true)
    (hcount : ∀ t : String,
      (s.nodes.filter (fun n => n.data.typename == t)).length =
        if visitKeyOf t 0 ∈ s.visited ∧ (R.lookup t).isSome = true then 1 else 0) :
    (createNodeForType u 0 options s).typeData = R ∧
    (∀ n ∈ (createNodeForType u 0 options s).nodes,
      n.data.depth = 0 ∧ n.data.isRoot = true ∧
      n.data.typename ∈ roots₀ ∧ (R.lookup n.data.typename).isSome = true) ∧
    (∀ t : String,
      ((createNodeForType u 0 options s).nodes.filter
        (fun n => n.data.typename == t)).length =
        if visitKeyOf t 0 ∈ (createNodeForType u 0 options s).visited ∧
            (R.lookup t).isSome = true then 1 else 0) ∧
    visitKeyOf u 0 ∈ (createNodeForType u 0 options s).visited ∧
    (∀ k, k ∈ s.visited → k ∈ (createNodeForType u 0 options s).visited) := by
  unfold createNodeForType
  have hnd : ¬ (0 ≥ options.maxDepth) := by omega
  rw [if_neg hnd]
  by_cases hv : visitKeyOf u 0 ∈ s.visited
  · rw [if_pos (List.elem_eq_true_of_mem hv)]
    exact ⟨hR, hshape, hcount, hv, fun k hk => hk⟩
  · have hvb : ¬ (s.visited.contains (visitKeyOf u 0) = true) := by
      intro hc
      exact hv (List.mem_of_elem_eq_true hc)
    rw [if_neg hvb]
    cases hlook : s.typeData.lookup u with
    | none =>
      dsimp only
      have hsome : (R.lookup u).isSome = false := by
        rw [← hR, hlook]
        rfl
      refine ⟨hR, hshape, ?_, List.mem_cons_self _ _, fun k hk => List.mem_cons_of_mem _ hk⟩
      intro t
      by_cases ht : t = u
      · subst ht
        rw [hcount t, hsome]
        simp
      · have hkne : visitKeyOf t 0 ≠ visitKeyOf u 0 := fun hk =>
          ht (visitKeyOf_inj_same t u 0 hk)
        rw [hcount t]
        have : (visitKeyOf t 0 ∈ visitKeyOf u 0 :: s.visited) ↔
            (visitKeyOf t 0 ∈ s.visited) := by
          simp [List.mem_cons, hkne]
        rw [if_congr (and_congr_left' this) rfl rfl]
    | some typeInfo =>
      dsimp only
      have hsome : (R.lookup u).isSome = true := by
        rw [← hR, hlook]
        rfl
      refine ⟨hR, ?_, ?_, List.mem_cons_self _ _, fun k hk => List.mem_cons_of_mem _ hk⟩
      · intro n hn
        rcases List.mem_append.mp hn with h1 | h2
        · exact hshape n h1
        · rw [List.mem_singleton.mp h2]
          exact ⟨rfl, rfl, hu, hsome⟩
      · intro t
        rw [List.filter_append, List.length_append]
        by_cases ht : t = u
        · subst ht
          have hnew : ([createNode t none 0 (0 == 0) options].filter
              (fun n => n.data.typename == t)).length = 1 := by
            simp [createNode]
          rw [hnew, hcount t]
          have hnot : ¬ (visitKeyOf t 0 ∈ s.visited ∧ (R.lookup t).isSome = true) :=
            fun hc => hv hc.1
          rw [if_neg hnot, if_pos ⟨List.mem_cons_self _ _, hsome⟩]
        · have hnew : ([createNode u none 0 (0 == 0) options].filter
              (fun n => n.data.typename == t)).length = 0 := by
            simp [createNode]
            intro hc
            exact ht hc.symm
          rw [hnew, hcount t]
          have hkne : visitKeyOf t 0 ≠ visitKeyOf u 0 := fun hk =>
            ht (visitKeyOf_inj_same t u 0 hk)
          have hmemiff : (visitKeyOf t 0 ∈ visitKeyOf u 0 :: s.visited) ↔
              (visitKeyOf t 0 ∈ s.visited) := by
            simp [List.mem_cons, hkne]
          rw [if_congr (and_congr_left' hmemiff) rfl rfl]
          omega

/-- The C2 invariant carried over the whole depth-0 fold. -/
theorem c2_fold (options : TransformOptions) (hmd : 0 < options.maxDepth)
    (R : TypeMap) (roots₀ : List String) :
    ∀ (l : List String) (s : Pass1State),
      (∀ t ∈ l, t ∈ roots₀) → s.typeData = R →
      (∀ n ∈ s.nodes, n.data.depth = 0 ∧ n.data.isRoot = true ∧
        n.data.typename ∈ roots₀ ∧ (R.lookup n.data.typename).isSome = true) →
      (∀ t : String,
        (s.nodes.filter (fun n => n.data.typename == t)).length =
          if visitKeyOf t 0 ∈ s.visited ∧ (R.lookup t).isSome = true then 1 else 0) →
      ((l.foldl (fun st t => createNodeForType t 0 options st) s).typeData = R ∧
       (∀ n ∈ (l.foldl (fun st t => createNodeForType t 0 options st) s).nodes,
         n.data.depth = 0 ∧ n.data.isRoot = true ∧
         n.data.typename ∈ roots₀ ∧ (R.lookup n.data.typename).isSome = true) ∧
       (∀ t : String,
         ((l.foldl (fun st t => createNodeForType t 0 options st) s).nodes.filter
           (fun n => n.data.typename == t)).length =
           if visitKeyOf t 0 ∈
               (l.foldl (fun st t => createNodeForType t 0 options st) s).visited ∧
             (R.lookup t).isSome = true then 1 else 0) ∧
       (∀ t ∈ l, visitKeyOf t 0 ∈
         (l.foldl (fun st t => createNodeForType t 0 options st) s).visited) ∧
       (∀ k, k ∈ s.visited →
         k ∈ (l.foldl (fun st t => createNodeForType t 0 options st) s).visited)) := by
  intro l
  induction l with
  | nil =>
    intro s _ hR hshape hcount
    exact ⟨hR, hshape, hcount, by intro t ht; simp at ht, fun k hk => hk⟩
  | cons u rest ih =>
    intro s hmem hR hshape hcount
    obtain ⟨hR1, hshape1, hcount1, hkey1, hmono1⟩ :=
      c2_step options hmd R roots₀ u (hmem u (List.mem_cons_self _ _)) s hR hshape hcount
    simp only [List.foldl_cons]
    obtain ⟨hR2, hshape2, hcount2, hkeys2, hmono2⟩ :=
      ih (createNodeForType u 0 options s)
        (fun t ht => hmem t (List.mem_cons_of_mem _ ht)) hR1 hshape1 hcount1
    refine ⟨hR2, hshape2, hcount2, ?_, fun k hk => hmono2 k (hmono1 k hk)⟩
    intro t ht
    rcases List.mem_cons.mp ht with ht1 | ht2
    · subst ht1
      exact hmono2 _ hkey1
    · exact hkeys2 t ht2

/-- One-round unfolding of the Pass 1 loop: with one unit of fuel the loop
fetches the missing roots and creates the depth-0 nodes, nothing more. -/
theorem pass1Go_one (options : TransformOptions) (fetchTypes : Option TypeFetcher)
    (roots : List String) (typeData : TypeMap) :
    pass1Go options fetchTypes 1 0 roots (pass1InitState typeData) =
      if roots.isEmpty then pass1InitState typeData
      else roots.foldl (fun st t => createNodeForType t 0 options st)
        (fetchStep fetchTypes roots (pass1InitState typeData)) := by
  rw [pass1Go]
  have hfilter : roots.filter
      (fun t => !((pass1InitState typeData).visited.contains (visitKeyOf t 0))) =
      roots :=
    List.filter_eq_self.mpr (fun a _ => rfl)
  rw [hfilter]
  by_cases he : roots.isEmpty
  · rw [if_pos he, if_pos he]
  · rw [if_neg he, if_neg he]
    rw [pass1Go]

/-- Claim C2: with `maxDepth = 1` the result has no edges, and its node
list consists of exactly one depth-0 root node per distinct root type name
whose introspection data is available in the cache or returned by the
(capped) fetch of the missing roots. -/
theorem claim2_max_depth_one (rootTypes : List String) (typeData : TypeMap)
    (options : TransformOptions) (fetchTypes : Option TypeFetcher)
    (h : options.maxDepth = 1) :
    (buildGraphFromIntrospection rootTypes typeData options fetchTypes).edges = [] ∧
    (∀ n ∈ (buildGraphFromIntrospection rootTypes typeData options fetchTypes).nodes,
      n.data.depth = 0 ∧ n.data.isRoot = true ∧ n.data.typename ∈ rootTypes ∧
      (((fetchStep fetchTypes rootTypes (pass1InitState typeData)).typeData.lookup
        n.data.typename).isSome = true)) ∧
    (∀ t ∈ rootTypes,
      ((fetchStep fetchTypes rootTypes (pass1InitState typeData)).typeData.lookup
        t).isSome = true →
      ((buildGraphFromIntrospection rootTypes typeData options fetchTypes).nodes.filter
        (fun n => n.data.typename == t)).length = 1) := by
  have hfinal : pass1Final rootTypes typeData options fetchTypes =
      (if rootTypes.isEmpty then pass1InitState typeData
       else rootTypes.foldl (fun st t => createNodeForType t 0 options st)
         (fetchStep fetchTypes rootTypes (pass1InitState typeData))) := by
    unfold pass1Final
    rw [h]
    exact pass1Go_one options fetchTypes rootTypes typeData
  by_cases he : rootTypes.isEmpty
  · rw [if_pos he] at hfinal
    have hempty : rootTypes = [] := by
      cases rootTypes with
      | nil => rfl
      | cons a l => simp [List.isEmpty] at he
    refine ⟨?_, ?_, ?_⟩
    · show (createEdgesBetweenNodes
        (pass1Final rootTypes typeData options fetchTypes).nodes
        (pass1Final rootTypes typeData options fetchTypes).typeData options).1 = []
      apply edges_nil_of_depth0
      intro n hn
      rw [hfinal] at hn
      simp [pass1InitState] at hn
    · intro n hn
      have hn' : n ∈ (pass1Final rootTypes typeData options fetchTypes).nodes := hn
      rw [hfinal] at hn'
      simp [pass1InitState] at hn'
    · intro t ht _
      rw [hempty] at ht
      simp at ht
  · rw [if_neg he] at hfinal
    have h1 : 0 < options.maxDepth := by omega
    obtain ⟨hR2, hshape2, hcount2, hkeys2, _⟩ := c2_fold options h1
      ((fetchStep fetchTypes rootTypes (pass1InitState typeData)).typeData)
      rootTypes rootTypes
      (fetchStep fetchTypes rootTypes (pass1InitState typeData))
      (fun t ht => ht) rfl
      (by
        rw [fetchStep_nodes]
        intro n hn
        simp [pass1InitState] at hn)
      (by
        intro t
        rw [fetchStep_nodes, fetchStep_visited]
        simp [pass1InitState])
    refine ⟨?_, ?_, ?_⟩
    · show (createEdgesBetweenNodes
        (pass1Final rootTypes typeData options fetchTypes).nodes
        (pass1Final rootTypes typeData options fetchTypes).typeData options).1 = []
      apply edges_nil_of_depth0
      intro n hn
      rw [hfinal] at hn
      exact (hshape2 n hn).1
    · intro n hn
      have hn' : n ∈ (pass1Final rootTypes typeData options fetchTypes).nodes := hn
      rw [hfinal] at hn'
      exact hshape2 n hn'
    · intro t ht hres
      show ((pass1Final rootTypes typeData options fetchTypes).nodes.filter
        (fun n => n.data.typename == t)).length = 1
      rw [hfinal, hcount2 t, if_pos ⟨hkeys2 t ht, hres⟩]

/-- Witness for C2: a concrete depth-1 build over a one-entry cache has no
edges and exactly one node for its resolvable root. -/
theorem claim2_max_depth_one_witness :
    (buildGraphFromIntrospection ["ManufacturerType"] [("ManufacturerType", mfrTy)]
      { maxDepth := 1 } none).edges = [] ∧
    ((buildGraphFromIntrospection ["ManufacturerType"] [("ManufacturerType", mfrTy)]
      { maxDepth := 1 } none).nodes.filter
        (fun n => n.data.typename == "ManufacturerType")).length = 1 := by
  have hc := claim2_max_depth_one ["ManufacturerType"] [("ManufacturerType", mfrTy)]
    { maxDepth := 1 } none rfl
  exact ⟨hc.1, hc.2.2 "ManufacturerType" (by decide) (by decide)⟩
